import Mathlib

/-!
Verification development for the quazydb query-compilation core.

This file gives a shallow embedding, in Lean, of the parts of the
repository that the checked properties talk about:

* the expression AST `DBSQL` and its composition operators
  (src/quazy/db_query.py, class `DBSQL`),
* the query builder state `QueryState` with argument interning
  (`DBQuery.arg`), expression resolution (`DBQuery.resolve`) and the
  clause-mutating builder methods,
* the lazy field-and-join resolver (`DBQueryField.__getattr__`),
* the group-by block of the PostgreSQL translator
  (src/quazy/translator_psql.py, `TranslatorPSQL.select`), and
* the schema dump/load round trip
  (src/quazy/db_table.py and src/quazy/db_field.py, `_dump_schema`
  and `_load_schema`).

Python objects holding a back reference to their query are modelled by
threading the query state explicitly: a method that mutates the query in
the source takes the state and returns the updated state.  Machine-level
details that no checked property depends on (connection handling,
cursors, the asynchronous surface) are not modelled.
-/

deriving instance DecidableEq for Except

/-- The single-quote character, kept out of literals as a code point. -/
def squoteChar : Char := Char.ofNat 39

/-- A single-quote string. -/
def squote : String := String.mk [squoteChar]

/-- `s.startswith p` over the character lists (the built-in
`String.startsWith` does not reduce in the kernel). -/
def strStarts (s p : String) : Bool := p.data.isPrefixOf s.data

/-- Split on the dot character, as `str.split` restricted to the one
separator this code base splits on. -/
def splitDotGo (acc : List Char) : List Char → List (List Char)
  | [] => [acc.reverse]
  | c :: rest =>
      if c = '.' then acc.reverse :: splitDotGo [] rest
      else splitDotGo (c :: acc) rest

/-- `s.split` on `.` (kernel-reducible counterpart of
`String.splitOn s "."`). -/
def splitOnDot (s : String) : List String :=
  (splitDotGo [] s.data).map String.mk

/-- Drop every dot (`str.replace(".", "")`). -/
def removeDots (s : String) : String :=
  String.mk (s.data.filter fun c => c ≠ '.')

/-- Fuelled non-overlapping substring replacement; the fuel is the input
length, enough since every step consumes at least one character for the
non-empty patterns used here. -/
def replaceSubGo (pat sub : List Char) : Nat → List Char → List Char
  | 0, l => l
  | _ + 1, [] => []
  | fuel + 1, c :: rest =>
      if pat.isPrefixOf (c :: rest) then
        sub ++ replaceSubGo pat sub fuel ((c :: rest).drop pat.length)
      else c :: replaceSubGo pat sub fuel rest

/-- `s.replace(pat, sub)` / `str.format` placeholder substitution
(kernel-reducible counterpart of `String.replace`). -/
def replaceSub (s pat sub : String) : String :=
  String.mk (replaceSubGo pat.data sub.data s.data.length s.data)

/-- Python scalar values that can reach `DBQuery.arg`.  `vNone` is Python
`None`. -/
inductive PyVal where
  | vNone
  | vBool (b : Bool)
  | vInt (i : Int)
  | vStr (s : String)
  deriving DecidableEq, Repr

/-- Numeric view of a value: Python `bool` is a subclass of `int`, so
`True == 1` holds. -/
def PyVal.num : PyVal → Option Int
  | .vBool b => some (if b then 1 else 0)
  | .vInt i => some i
  | _ => none

/-- Python `==` on the modelled scalar values. -/
def pyEq (a b : PyVal) : Bool :=
  match a.num, b.num with
  | some x, some y => x = y
  | _, _ => a == b

/-- CPython `repr` of a string, for strings needing no escapes beyond the
quote choice: single quotes, or double quotes when the string contains a
single quote (escape sequences for strings containing both are elided;
no checked property feeds such a string to `repr`). -/
def pyReprStr (s : String) : String :=
  if s.data.contains squoteChar then "\"" ++ s ++ "\"" else squote ++ s ++ squote

/-- Modelled from the spec: the translator method `place_arg` is called
from `DBQuery.arg` and `DBQuery.var` (db_query.py:614,618,639) but its
definition is not under src/; only `arg_prefix = \x7b'%('\x7d`
(translator_psql.py:51) and the spec statement that the compiled output
carries named placeholders survive.  The PostgreSQL named-placeholder
convention with that prefix is `%(key)s`. -/
def place_arg (key : String) : String := "%(" ++ key ++ ")s"

/-- Exceptions that the modelled code can raise.  `typeError` is the
Python built-in `TypeError`; the remaining constructors are the classes
of src/quazy/exceptions.py.  `unmodelled` marks a source path that the
model declines to follow (each use site says why); no theorem below
relies on a branch that returns it. -/
inductive PyError where
  | typeError
  | attributeError
  | quazyError
  | quazyFrozen
  | quazyFieldTypeError
  | quazyFieldNameError
  | quazyWrongOperation
  | quazyTranslatorException
  | unmodelled
  deriving DecidableEq, Repr

/-- Field value types: the twelve members of `KNOWN_TYPES`
(db_types.py:29-41), enum classes, and table classes (the type of a
reference field). -/
inductive TypeTag where
  | tInt | tStr | tFloat | tBool | tBytes
  | tDatetime | tTimedelta | tDate | tTime
  | tDecimal | tUUID | tDict
  | tIntEnum (n : String)
  | tStrEnum (n : String)
  | tTable (qualname : String)
  deriving DecidableEq, Repr

/-- Membership in `KNOWN_TYPES` (db_types.py:29-41). -/
def TypeTag.known : TypeTag → Bool
  | .tInt | .tStr | .tFloat | .tBool | .tBytes => true
  | .tDatetime | .tTimedelta | .tDate | .tTime => true
  | .tDecimal | .tUUID | .tDict => true
  | _ => false

/-- `db_type_name` (db_types.py:75-83): the `__name__` of a known type,
`int`/`str` for enum classes, `TypeError` (here `none`) otherwise. -/
def db_type_name : TypeTag → Option String
  | .tInt => some "int"
  | .tStr => some "str"
  | .tFloat => some "float"
  | .tBool => some "bool"
  | .tBytes => some "bytes"
  | .tDatetime => some "datetime"
  | .tTimedelta => some "timedelta"
  | .tDate => some "date"
  | .tTime => some "time"
  | .tDecimal => some "Decimal"
  | .tUUID => some "UUID"
  | .tDict => some "dict"
  | .tIntEnum _ => some "int"
  | .tStrEnum _ => some "str"
  | .tTable _ => none

/-- `TYPE_MAP` lookup inside `db_type_by_name` (db_types.py:37-52,86-89):
a known name maps back to the type, any other name is returned as the
string itself (`.inr`), to be resolved against the table registry
later. -/
def db_type_by_name (name : String) : Sum TypeTag String :=
  if name = "int" then .inl .tInt
  else if name = "str" then .inl .tStr
  else if name = "float" then .inl .tFloat
  else if name = "bool" then .inl .tBool
  else if name = "bytes" then .inl .tBytes
  else if name = "datetime" then .inl .tDatetime
  else if name = "timedelta" then .inl .tTimedelta
  else if name = "date" then .inl .tDate
  else if name = "time" then .inl .tTime
  else if name = "Decimal" then .inl .tDecimal
  else if name = "UUID" then .inl .tUUID
  else if name = "dict" then .inl .tDict
  else if name = "IntEnum" then .inl .tInt
  else if name = "StrEnum" then .inl .tStr
  else .inr name

/-- The `__qualname__` of the class a `TypeTag` stands for (built-in
classes are named by their type name). -/
def TypeTag.qualOf : TypeTag → String
  | .tIntEnum n => n
  | .tStrEnum n => n
  | .tTable q => q
  | t => (db_type_name t).getD ""

/-- An expression AST node (db_query.py, class `DBSQL`): rendered SQL
text plus the is-aggregated flag. -/
structure DBSQL where
  sql_text : String
  aggregated : Bool
  deriving DecidableEq, Repr

/-- `DBJoinKind` (db_query.py:448-453). -/
inductive DBJoinKind where
  | SOURCE | LEFT | RIGHT | INNER | OUTER
  deriving DecidableEq, Repr

/-- The `with_table` of a join: a table class (identified by qualified
name) or a subquery (identified by its query name). -/
inductive JoinTarget where
  | table (qualname : String)
  | subquery (name : String)
  deriving DecidableEq, Repr

/-- `DBJoin` (db_query.py:456-460): kind, target, and an optional
condition template that may contain the literal placeholder
`\x7bjoin_alias\x7d`, substituted at compile time. -/
structure DBJoin where
  kind : DBJoinKind
  with_table : JoinTarget
  condition : Option String := none
  deriving DecidableEq, Repr

/-- A table-bound cursor (db_query.py, class `DBQueryField`): the bound
table (by qualified name), the current alias, the pending join, and the
representation used for direct select (`_repr`). -/
structure Cursor where
  table : String
  alias' : String
  join : Option DBJoin := none
  reprs : Option String := none
  deriving DecidableEq, Repr

/-- Result of attribute resolution: a leaf expression or a new cursor
(`DBQueryField.__getattr__` returns either a `DBSQL` or a
`DBQueryField`). -/
inductive QVal where
  | leaf (e : DBSQL)
  | cursor (c : Cursor)
  deriving DecidableEq, Repr

/-- `DBChainedFilter` (db_query.py:468-471). -/
structure ChainedFilter where
  id_name : String
  next_name : String
  sql_value : DBSQL
  deriving DecidableEq, Repr

/-- One entry of `DBQuery.with_queries`; the subquery itself is recorded
by name (`DBWithClause`, db_query.py:463-466). -/
structure WithClause where
  qname : String
  not_materialized : Bool
  deriving DecidableEq, Repr

/-- The scheme a resolve call walks (db_query.py:523-536): the cursor of
the bound table, the namespace of all tables (`DBScheme`) for unbound
queries, or a plain expression when a dotted path steps through a leaf
(Python then carries the `DBSQL` object as the scheme). -/
inductive Scheme where
  | dbscheme
  | cursor (c : Cursor)
  | leafSch (e : DBSQL)
  deriving DecidableEq, Repr

/-- The mutable state of a `DBQuery` (db_query.py:494-521), restricted
to the attributes the checked properties touch.  `bound_table` is the
source attribute `table_class`, as a qualified table name. -/
structure QueryState where
  qname : String := "q"
  bound_table : Option String := none
  fields : List (String × QVal) := []
  fetch_objects : Bool := false
  joins : List (String × DBJoin) := []
  sort_list : List DBSQL := []
  filters : List DBSQL := []
  chained_opts : Option ChainedFilter := none
  groups : List DBSQL := []
  group_filters : List DBSQL := []
  has_aggregates : Bool := false
  window : Option Int × Option Int := (none, none)
  is_distinct : Bool := false
  with_queries : List WithClause := []
  frozen_sql : Option String := none
  args : List (String × PyVal) := []
  arg_counter : Nat := 0
  scheme : Scheme := .dbscheme
  deriving DecidableEq, Repr

/-- Python dict assignment `d[k] = v` on an insertion-ordered
association list: update in place if the key exists, append
otherwise. -/
def dictSet {α : Type} (l : List (String × α)) (k : String) (v : α) :
    List (String × α) :=
  match l with
  | [] => [(k, v)]
  | (k', v') :: rest =>
      if k' = k then (k, v) :: rest else (k', v') :: dictSet rest k v

/-- `DBQuery._check_frozen` (db_query.py:538-540).  The statement there
is a bare `raise QuazyFrozen`; Python instantiates the class with no
arguments, and `QuazyFrozen.__init__` (exceptions.py:29-32) requires a
positional `msg`, so the instantiation itself fails and the call raises
the built-in `TypeError`, never a `QuazyFrozen` instance. -/
def DBQuery.check_frozen (q : QueryState) : Except PyError Unit :=
  match q.frozen_sql with
  | some _ => .error .typeError
  | none => .ok ()

/-- First key of the argument table whose value compares `==` to `v`
(db_query.py:611-612). -/
def pyFindArg (args : List (String × PyVal)) (v : PyVal) : Option String :=
  (args.find? (fun kv => pyEq kv.2 v)).map (·.1)

/-- `DBQuery.arg` (db_query.py:592-618) on a plain value: `None` renders
as the inline literal `NULL` (and is never stored), a value equal to one
already interned reuses that key, any other value is stored under a
fresh `_arg_N` key; either way the expression text is the named
placeholder for the key.  (The `DBSQL` pass-through branch is handled by
the callers below; the `DBTable` and `DBSubqueryField` branches are not
modelled.) -/
def DBQuery.argVal (q : QueryState) (v : PyVal) (aggregated : Bool) :
    QueryState × DBSQL :=
  if v = PyVal.vNone then (q, ⟨"NULL", false⟩)
  else
    match pyFindArg q.args v with
    | some k => (q, ⟨place_arg k, aggregated⟩)
    | none =>
        let n := q.arg_counter + 1
        let k := "_arg_" ++ toString n
        ({ q with arg_counter := n, args := q.args ++ [(k, v)] },
         ⟨place_arg k, aggregated⟩)

/-- An argument to an expression operator: an expression node or a plain
value (the two shapes `DBSQL.arg` distinguishes). -/
inductive ArgLike where
  | node (e : DBSQL)
  | val (v : PyVal)
  deriving DecidableEq, Repr

/-- The aggregated flag carried by an operand (false for plain
values). -/
def ArgLike.aggFlag : ArgLike → Bool
  | .node e => e.aggregated
  | .val _ => false

/-- `DBQuery.arg` including the `DBSQL` pass-through branch
(db_query.py:601-602). -/
def DBQuery.arg (q : QueryState) (a : ArgLike) (aggregated : Bool) :
    QueryState × DBSQL :=
  match a with
  | .node e => (q, e)
  | .val v => DBQuery.argVal q v aggregated

namespace DBSQL

/-- `DBSQL.sql` (db_query.py:208-209): a new node with the given text
and this node's aggregated flag. -/
def sql (self : DBSQL) (s : String) : DBSQL := ⟨s, self.aggregated⟩

/-- `DBSQL.arg` (db_query.py:211-214): passing an aggregated node as an
operand turns this node aggregated as well; returns the interned operand
node together with the updated flag of `self`. -/
def argm (self : DBSQL) (q : QueryState) (a : ArgLike) :
    QueryState × DBSQL × Bool :=
  let agg' := self.aggregated || a.aggFlag
  let (q', node) := DBQuery.arg q a agg'
  (q', node, agg')

/-- `DBSQL.func1` (db_query.py:216-217). -/
def func1 (self : DBSQL) (o : String) : DBSQL :=
  self.sql (o ++ "(" ++ self.sql_text ++ ")")

/-- `DBSQL.aggregate` (db_query.py:219-221): sets the aggregated flag
and wraps the text in the aggregate function call. -/
def aggregate (self : DBSQL) (o : String) : DBSQL :=
  ({ self with aggregated := true } : DBSQL).func1 o

/-- `DBSQL.op` (db_query.py:223-224): binary operator; the operand is
routed through `arg`, whose `repr` is its SQL text. -/
def op (self : DBSQL) (q : QueryState) (o : String) (other : ArgLike) :
    QueryState × DBSQL :=
  match self.argm q other with
  | (q', node, agg') =>
      (q', ⟨self.sql_text ++ o ++ node.sql_text, agg'⟩)

/-- `DBSQL.func2` (db_query.py:229-230). -/
def func2 (self : DBSQL) (q : QueryState) (o : String) (other : ArgLike) :
    QueryState × DBSQL :=
  match self.argm q other with
  | (q', node, agg') =>
      (q', ⟨o ++ "(" ++ self.sql_text ++ ", " ++ node.sql_text ++ ")", agg'⟩)

/-- `DBSQL.__eq__` (db_query.py:335-336). -/
def eq (self : DBSQL) (q : QueryState) (other : ArgLike) :
    QueryState × DBSQL :=
  self.op q "=" other

/-- `DBSQL.__ne__` (db_query.py:338-339). -/
def ne (self : DBSQL) (q : QueryState) (other : ArgLike) :
    QueryState × DBSQL :=
  self.op q "<>" other

/-- `DBSQL.__invert__` (db_query.py:312-313). -/
def invert (self : DBSQL) : DBSQL := self.func1 "NOT"

/-- `DBSQL.is_null` (db_query.py:397-399). -/
def is_null (self : DBSQL) : DBSQL :=
  self.sql (self.sql_text ++ " IS NULL")

/-- `DBSQL.is_not_null` (db_query.py:401-403). -/
def is_not_null (self : DBSQL) : DBSQL :=
  self.sql (self.sql_text ++ " IS NOT NULL")

end DBSQL

/-- Python `str(x)` for an optional string, as an f-string renders it:
`None` prints as `None`. -/
def pyStrOpt : Option String → String
  | some s => s
  | none => "None"

/-- A table field (src/quazy/db_field.py, dataclass `DBField`),
restricted to the attributes the checked properties read.  Lean default
values mirror the dataclass defaults (`required` defaults to `True`,
`default` to the sentinel `object`, recorded here as
`hasDefault := false`).  `preType` is the `_pre_type` attribute set by
`_load_schema`. -/
structure DBField where
  name : String := ""
  column : String := ""
  ftype : Option TypeTag := none
  pk : Bool := false
  cid : Bool := false
  ref : Bool := false
  body : Bool := false
  property : Bool := false
  required : Bool := true
  indexed : Bool := false
  unique : Bool := false
  hasDefault : Bool := false
  default_sql : Option String := none
  preType : Option (Sum TypeTag String) := none
  deriving DecidableEq, Repr

/-- `DBField.__post_init__` (db_field.py:51-53). -/
def DBField.post_init (f : DBField) : DBField :=
  if f.hasDefault || f.default_sql.isSome then { f with required := false }
  else f

/-- `DBField.prepare` (db_field.py:57-66); the `ux` bookkeeping is
visual-only and elided. -/
def DBField.prepare (f : DBField) (n : String) : DBField :=
  let f := { f with name := n }
  if f.column = "" then { f with column := n } else f

/-- `DBManyField` (db_field.py:149-151); the foreign table is recorded
by qualified name. -/
structure DBManyField where
  foreign_table : String
  foreign_field : Option String := none
  deriving DecidableEq, Repr

/-- `DBManyToManyField` (db_field.py:154-156). -/
structure DBManyToManyField where
  foreign_table : String
  foreign_field : Option String := none
  middle_table : Option String := none
  deriving DecidableEq, Repr

/-- The resolved `DBTable.DB` metadata of one table
(db_table.py, class `DBTable.DB`), keyed in the registry by the class
qualified name.  `pkColumn` and `bodyColumn` record `DB.pk.column` and
`DB.body.column`. -/
structure TableRec where
  qualname : String
  modname : String := ""
  table : String
  schema : String := ""
  snake : String := ""
  pkColumn : String := "id"
  bodyColumn : Option String := none
  fields : List (String × DBField) := []
  subtables : List (String × String) := []
  many_fields : List (String × DBManyField) := []
  many_to_many_fields : List (String × DBManyToManyField) := []
  extendable : Bool := false
  discriminator : Option String := none
  just_for_typing : Bool := false
  deriving DecidableEq, Repr

/-- The process-wide table registry (class identity → resolved
metadata). -/
def Reg : Type := List (String × TableRec)

/-- PostgreSQL column types (`Translator.TYPES_MAP`,
translator.py:18-31), for the types a cast can name. -/
def typesMapPSQL : TypeTag → Option String
  | .tInt => some "integer"
  | .tFloat => some "double precision"
  | .tStr => some "text"
  | .tBytes => some "bytea"
  | .tDatetime => some "timestamp"
  | .tTime => some "time"
  | .tDate => some "date"
  | .tTimedelta => some "interval"
  | .tBool => some "boolean"
  | .tDict => some "jsonb"
  | .tUUID => some "uuid"
  | _ => none

/-- `TranslatorPSQL.type_cast` (translator_psql.py:71-74). -/
def type_cast_psql (expr : String) (t : TypeTag) : Except PyError String :=
  match typesMapPSQL t with
  | some n => .ok ("(" ++ expr ++ ")::" ++ n)
  | none => .error .quazyTranslatorException

/-- `TranslatorPSQL.json_deserialize` (translator_psql.py:96-110) on the
field type.  The reference branch recurses into the target table's
primary-key field and is not modelled (`unmodelled`); no checked
property reads a reference-typed computed property. -/
def json_deserialize_psql (t : Option TypeTag) (field_path : String) :
    Except PyError String :=
  match t with
  | some .tStr => .ok (field_path ++ "::text")
  | some .tInt => type_cast_psql field_path .tInt
  | some .tFloat => type_cast_psql field_path .tFloat
  | some .tBool => type_cast_psql field_path .tBool
  | some .tBytes => type_cast_psql field_path .tBytes
  | some .tUUID => type_cast_psql field_path .tUUID
  | some (.tTable _) => .error .unmodelled
  | some .tDatetime => .ok ("to_timestamp((" ++ field_path ++ ")::bigint)")
  | some .tDate => .ok ("date(to_timestamp((" ++ field_path ++ ")::bigint))")
  | some .tTime => .ok ("to_timestamp((" ++ field_path ++ ")::bigint)::time")
  | some .tTimedelta =>
      .ok ("(" ++ field_path ++ " || " ++ squote ++ " seconds" ++ squote
           ++ ")::interval")
  | _ => .error .quazyFieldTypeError

/-- Lines 59-60 of db_query.py: on any attribute access the cursor
registers its own alias in the query's join map, unless the alias is
already registered; the join is the cursor's pending join or a
`SOURCE` entry for its table. -/
def registerAlias (q : QueryState) (c : Cursor) : QueryState :=
  if (List.lookup c.alias' q.joins).isSome then q
  else
    { q with joins :=
        q.joins ++ [(c.alias', c.join.getD ⟨.SOURCE, .table c.table, none⟩)] }

/-- The `field_path` computation of `DBQueryField.__getattr__`
(db_query.py:64-69): a quoted alias-and-column path for a plain column,
or the JSON accessor through the body column for a computed property. -/
def fieldPath (DB : TableRec) (self : Cursor) (field : DBField)
    (item : String) : Except PyError String :=
  if !field.property then
    .ok ("\"" ++ self.alias' ++ "\".\"" ++ field.column ++ "\"")
  else
    match DB.bodyColumn with
    | none => .error .typeError
    | some bcol =>
        let base := "\"" ++ self.alias' ++ "\".\"" ++ bcol ++ "\""
        json_deserialize_psql field.ftype
          (base ++ "->>" ++ squote ++ item ++ squote)

/-- The dispatch body of `DBQueryField.__getattr__` (db_query.py:62-105),
taking the state after the self-alias registration of lines 59-60: field
access returns a leaf expression (plain column or property), or a new
cursor through a reference / subtable / one-to-many / many-to-many join.
User-supplied `__view` accessors and class properties
(db_query.py:100-103) are not modelled, so tables here behave as tables
without such accessors and unknown names raise the field-name error. -/
def DBQueryField.getattrCore (reg : Reg) (q : QueryState) (self : Cursor)
    (item : String) : Except PyError (QueryState × QVal) :=
  match List.lookup self.table reg with
    | none => .error .unmodelled
    | some DB =>
      match List.lookup item DB.fields with
      | some field =>
          match fieldPath DB self field item with
          | .error e => .error e
          | .ok field_path =>
            if field.ref then
              match field.ftype with
              | some (.tTable tq) =>
                  match List.lookup tq reg with
                  | none => .error .unmodelled
                  | some tgt =>
                      let join_alias := DB.table ++ "__" ++ field.name ++ "s"
                      let join_kind :=
                        if field.required then DBJoinKind.INNER
                        else DBJoinKind.LEFT
                      let join : DBJoin :=
                        ⟨join_kind, .table tq,
                         some (field_path ++ " = \"{join_alias}\"."
                               ++ tgt.pkColumn)⟩
                      .ok (q, .cursor ⟨tq, join_alias, some join,
                                       some field_path⟩)
              | _ => .error .unmodelled
            else .ok (q, .leaf ⟨field_path, false⟩)
      | none =>
        match List.lookup item DB.subtables with
        | some subq =>
            let join_alias := self.alias' ++ "__" ++ item
            let join : DBJoin :=
              ⟨.INNER, .table subq,
               some ("\"" ++ self.alias' ++ "\"." ++ DB.pkColumn
                     ++ " = \"{join_alias}\"." ++ DB.table)⟩
            .ok (q, .cursor ⟨subq, join_alias, some join, none⟩)
        | none =>
          match List.lookup item DB.many_fields with
          | some mf =>
              let join_alias := self.alias' ++ "__" ++ item
              let join : DBJoin :=
                ⟨.LEFT, .table mf.foreign_table,
                 some ("\"" ++ self.alias' ++ "\"." ++ DB.pkColumn
                       ++ " = \"{join_alias}\"." ++ pyStrOpt mf.foreign_field)⟩
              .ok (q, .cursor ⟨mf.foreign_table, join_alias, some join, none⟩)
          | none =>
            match List.lookup item DB.many_to_many_fields with
            | some mm =>
                match mm.middle_table with
                | none => .error .unmodelled
                | some midq =>
                  match List.lookup midq reg, List.lookup mm.foreign_table reg with
                  | some mid, some ft =>
                      let midName := mid.table
                      let q :=
                        if (List.lookup midName q.joins).isSome then q
                        else
                          { q with joins := q.joins ++
                            [(midName,
                              ⟨.INNER, .table midq,
                               some ("\"" ++ self.alias' ++ "\"." ++ DB.pkColumn
                                     ++ " = \"" ++ midName ++ "\"."
                                     ++ DB.table)⟩)] }
                      let join_alias := self.alias' ++ "__" ++ item
                      let join : DBJoin :=
                        ⟨.INNER, .table mm.foreign_table,
                         some ("\"" ++ midName ++ "\"." ++ ft.table
                               ++ " = \"{join_alias}\"." ++ ft.pkColumn)⟩
                      .ok (q, .cursor ⟨mm.foreign_table, join_alias,
                                       some join, none⟩)
                  | _, _ => .error .unmodelled
            | none => .error .quazyFieldNameError

/-- `DBQueryField.__getattr__` (db_query.py:55-105): a leading
underscore addresses instance internals and is outside the resolution
semantics; any other access first registers the cursor's own alias
(lines 59-60) and then dispatches on the name. -/
def DBQueryField.getattr (reg : Reg) (q : QueryState) (self : Cursor)
    (item : String) : Except PyError (QueryState × QVal) :=
  if strStarts item "_" then .error .unmodelled
  else DBQueryField.getattrCore reg (registerAlias q self) self item

/-- Resolution of a dotted attribute path by repeated `__getattr__`,
starting from a cursor.  Attribute access on a leaf mid-path reaches
methods of the `DBSQL` object in Python and is not modelled. -/
def DBQueryField.resolvePath (reg : Reg) :
    QueryState → Cursor → List String → Except PyError (QueryState × QVal)
  | q, c, [] => .ok (q, .cursor c)
  | q, c, n :: rest =>
      match DBQueryField.getattr reg q c n with
      | .error e => .error e
      | .ok (q', .cursor c') => DBQueryField.resolvePath reg q' c' rest
      | .ok (q', .leaf e) =>
          match rest with
          | [] => .ok (q', .leaf e)
          | _ :: _ => .error .unmodelled

/-- One step of `camel2snake` (db_table.py:33-37): the regex inserts an
underscore before an upper-case letter that follows a lower-case letter
or digit, or that is not at the start, not preceded by an underscore and
followed by a lower-case letter; then the whole string is lowered. -/
def camel2snakeGo : Option Char → List Char → List Char
  | _, [] => []
  | prev, c :: rest =>
      let ins :=
        c.isUpper &&
          (match prev with
           | some p =>
               (p.isLower || p.isDigit) ||
                 (decide (p ≠ '_') &&
                   (match rest with
                    | n :: _ => n.isLower
                    | [] => false))
           | none => false)
      (if ins then ['_', c.toLower] else [c.toLower]) ++
        camel2snakeGo (some c) rest

/-- `camel2snake` (db_table.py:33-37). -/
def camel2snake (s : String) : String :=
  String.mk (camel2snakeGo none s.data)

/-- The dictionary produced by `DBField._dump_schema`
(db_field.py:68-82): `name`, `column` and the encoded type tag are
always present; each boolean flag key is present exactly when the flag
is true (so a `Bool` here models presence), and `default_sql` is
present when truthy. -/
structure FieldDump where
  name : String
  column : String
  ftype : String
  pk : Bool := false
  cid : Bool := false
  ref : Bool := false
  body : Bool := false
  property : Bool := false
  required : Bool := false
  indexed : Bool := false
  unique : Bool := false
  default_sql : Option String := none
  deriving DecidableEq, Repr

/-- `DBField._dump_schema` (db_field.py:68-82): the type entry is
`db_type_name(self.type)` for a plain field (a `TypeError` for an
unsupported class) and `self.type.__qualname__` for a reference. -/
def DBField.dump_schema (f : DBField) : Except PyError FieldDump :=
  let tq : Except PyError String :=
    if f.ref then
      match f.ftype with
      | some t => .ok t.qualOf
      | none => .error .attributeError
    else
      match f.ftype with
      | some t =>
          match db_type_name t with
          | some n => .ok n
          | none => .error .typeError
      | none => .error .typeError
  match tq with
  | .error e => .error e
  | .ok tname =>
      .ok { name := f.name, column := f.column, ftype := tname,
            pk := f.pk, cid := f.cid, ref := f.ref, body := f.body,
            property := f.property, required := f.required,
            indexed := f.indexed, unique := f.unique,
            default_sql :=
              match f.default_sql with
              | some s => if s = "" then none else some s
              | none => none }

/-- `DBField._load_schema` (db_field.py:84-97): pop `name`, `type`,
`ref` and `required` (the latter two defaulting to false when absent),
construct the dataclass from the rest, run `prepare`, then restore
`ref` and `required` and record `_pre_type` via `db_type_by_name`. -/
def DBField.load_schema (d : FieldDump) : DBField :=
  let f : DBField := DBField.post_init
    { column := d.column, pk := d.pk, cid := d.cid, body := d.body,
      property := d.property, indexed := d.indexed, unique := d.unique,
      default_sql := d.default_sql }
  let f := f.prepare d.name
  { f with ref := d.ref, required := d.required,
           preType := some (db_type_by_name d.ftype) }

/-- The later type-resolution pass over a loaded field
(`MetaTable.resolve_types`, db_table.py:221-320, restricted to setting
`field.type` from the annotation): a class annotation is kept, a name
string is looked up in the table registry. -/
def DBField.applyPreType (look : String → Option TypeTag) (f : DBField) :
    DBField :=
  match f.preType with
  | some (.inl t) => { f with ftype := some t }
  | some (.inr n) => { f with ftype := look n }
  | none => f

/-- The dictionary produced by `DBTable._dump_schema`
(db_table.py:713-726): `qualname`, `module`, `table`, `schema` and the
per-field dictionaries are always present; `extendable`,
`discriminator` and `just_for_typing` only when truthy. -/
structure TableDump where
  qualname : String
  modname : String
  table : String
  schema : String
  fields : List (String × FieldDump)
  extendable : Bool := false
  discriminator : Option String := none
  just_for_typing : Bool := false
  deriving DecidableEq, Repr

/-- `DBTable._dump_schema` (db_table.py:713-726). -/
def DBTable.dump_schema (t : TableRec) : Except PyError TableDump :=
  match (t.fields.mapM fun nf =>
      (DBField.dump_schema nf.2).map fun d => (nf.1, d)) with
  | .error e => .error e
  | .ok fds =>
      .ok { qualname := t.qualname, modname := t.modname,
            table := t.table, schema := t.schema, fields := fds,
            extendable := t.extendable,
            discriminator :=
              match t.discriminator with
              | some s => if s = "" then none else some s
              | none => none,
            just_for_typing := t.just_for_typing }

/-- The accumulator of `MetaTable.collect_fields` (db_table.py:117-202)
while it walks the annotations of a loaded class. -/
structure CollectState where
  fields : List (String × DBField) := []
  has_pk : Bool := false
  pk : Option DBField := none
  body : Option DBField := none
  deriving DecidableEq, Repr

/-- One annotation entry of `MetaTable.collect_fields` for a class
rebuilt by `DBTable._load_schema` (db_table.py:132-185).  The rebuilt
annotations are `_pre_type` values, which never carry the
`ClassVar`/`ObjVar`/`FieldCID` annotation markers (`get_annotated_id`
matches only `Tag[...]`-shaped strings), so of the marker branches only
the body check (`t == 'FieldBody' or field.body`) can fire. -/
def collectFieldStep (st : CollectState) (n : String) (f0 : DBField) :
    Except PyError CollectState :=
  if strStarts n "_" then .ok st
  else
    let field := f0.prepare n
    if field.pk then
      .ok { st with has_pk := true, pk := some field,
                    fields := dictSet st.fields n field }
    else if field.preType = some (.inr "FieldBody") || field.body then
      match st.body with
      | some _ => .error .quazyFieldTypeError
      | none =>
          let field := { field with body := true }
          .ok { st with body := some field,
                        fields := dictSet st.fields n field }
    else .ok { st with fields := dictSet st.fields n field }

/-- The synthesized `id` primary key added by `collect_fields` when no
declared field is a primary key (db_table.py:192-200). -/
def defaultPkField : DBField :=
  (DBField.prepare { pk := true, ftype := some .tInt } "id")

/-- `MetaTable.collect_fields` over the fields of a loaded table
(db_table.py:117-202), followed by the pk/cid designation loop of
`DBTable._load_schema` (db_table.py:741-745). -/
def collectLoadedFields (entries : List (String × DBField)) :
    Except PyError CollectState :=
  match (entries.foldlM (fun st nf => collectFieldStep st nf.1 nf.2)
          ({} : CollectState)) with
  | .error e => .error e
  | .ok st =>
      if st.has_pk then .ok st
      else
        .ok { st with pk := some defaultPkField,
                      fields := dictSet st.fields "id" defaultPkField }

/-- `DBTable._load_schema` (db_table.py:728-747) together with the parts
of `MetaTable.__new__` (db_table.py:48-115) that run when the class is
rebuilt: field loading, `collect_fields`, table/snake naming and the
spec attributes.  The `_pre_type` annotations of a loaded class never
match the `FieldCID` marker, so no cid designation happens during
collection; the trailing loop of `_load_schema` designates pk and cid
from the field flags (last match wins). -/
def DBTable.load_schema (d : TableDump) : Except PyError TableRec :=
  let entries := d.fields.map fun nf => (nf.1, DBField.load_schema nf.2)
  match collectLoadedFields entries with
  | .error e => .error e
  | .ok st =>
      let tname :=
        if d.table = "" then camel2snake (removeDots d.qualname)
        else d.table
      let snakeRes : Except PyError String :=
        if (splitOnDot d.qualname).length > 1 then
          let fn := camel2snake (((splitOnDot d.qualname).getLast?).getD "")
                    ++ "s"
          if (List.lookup fn st.fields).isSome then .error .quazyFieldNameError
          else .ok fn
        else .ok (camel2snake d.qualname ++ "s")
      match snakeRes with
      | .error e => .error e
      | .ok sn =>
          let pkF := ((st.fields.filter fun nf => nf.2.pk).getLast?).map (·.2)
          let bodyF := ((st.fields.filter fun nf => nf.2.body).getLast?).map (·.2)
          .ok { qualname := d.qualname, modname := d.modname,
                table := tname, schema := d.schema, snake := sn,
                pkColumn := (pkF.map (·.column)).getD "id",
                bodyColumn := bodyF.map (·.column),
                fields := st.fields,
                extendable := d.extendable,
                discriminator :=
                  match d.discriminator with
                  | some s => if s = "" then none else some s
                  | none => none,
                just_for_typing := d.just_for_typing }

/-- `DBSQL.postfix` (db_query.py:241-242). -/
def DBSQL.postfix_op (self : DBSQL) (s : String) : DBSQL :=
  self.sql (self.sql_text ++ " " ++ s)

/-- `DBSQL.prefix` (db_query.py:238-239). -/
def DBSQL.prefix_op (self : DBSQL) (s : String) : DBSQL :=
  self.sql (s ++ " " ++ self.sql_text)

/-- Identifier start of the canonical-expression regex
(db_query.py:30,36). -/
def isIdentStart (c : Char) : Bool := c.isAlpha || c = '_'

/-- Identifier continuation of the canonical-expression regex. -/
def isIdentChar (c : Char) : Bool := c.isAlpha || c.isDigit || c = '_'

/-- One chunk of the pattern, `[a-zA-Z_][a-zA-Z0-9_]+`: note the `+`,
each chunk needs at least two characters. -/
def isCanonChunk (s : String) : Bool :=
  match s.data with
  | [] => false
  | c :: rest => isIdentStart c && !rest.isEmpty && rest.all isIdentChar

/-- `is_expression_canonical` (db_query.py:32-36): a dotted path of two
or more identifier chunks. -/
def is_expression_canonical (s : String) : Bool :=
  decide ((splitOnDot s).length ≥ 2) && (splitOnDot s).all isCanonChunk

/-- `DBQueryField.__contains__` (db_query.py:46-48). -/
def schemeContains (reg : Reg) (c : Cursor) (item : String) : Bool :=
  match List.lookup c.table reg with
  | none => false
  | some DB =>
      (List.lookup item DB.fields).isSome
        || (List.lookup item DB.many_fields).isSome
        || (List.lookup item DB.many_to_many_fields).isSome

/-- Turn a resolution result into the scheme the next path step walks
(Python simply passes the object along). -/
def toScheme : QVal → Scheme
  | .cursor c => .cursor c
  | .leaf e => .leafSch e

/-- `getattr(scheme, name)` for each scheme shape: the cursor resolver,
the table namespace of an unbound query (`DBScheme` attributes are the
snake names of the registered tables, db_query.py:523-526), or a leaf
(whose Python attributes are `DBSQL` methods, not modelled). -/
def schemeGetattr (reg : Reg) (q : QueryState) (sch : Scheme)
    (item : String) : Except PyError (QueryState × QVal) :=
  match sch with
  | .cursor c => DBQueryField.getattr reg q c item
  | .dbscheme =>
      match reg.find? (fun kv => kv.2.snake = item) with
      | some kv => .ok (q, .cursor ⟨kv.1, kv.2.table, none, none⟩)
      | none => .error .attributeError
  | .leafSch _ => .error .unmodelled

/-- The tail of the non-canonical string branch of `DBQuery.resolve`
(db_query.py:685-688): a string shorter than 1024 characters is spliced
into the SQL text through `repr`, a longer one is interned as an
argument. -/
def DBQuery.spliceOrIntern (q : QueryState) (s : String) :
    QueryState × DBSQL :=
  if s.length < 1024 then (q, ⟨pyReprStr s, false⟩)
  else DBQuery.argVal q (.vStr s) false

/-- The non-canonical string branch of `DBQuery.resolve`
(db_query.py:677-688): on a table-bound scheme a field name resolves
through the cursor; `__view` functions and class properties
(db_query.py:681-684) are not modelled, so any other string is spliced
or interned. -/
def DBQuery.resolveNC (reg : Reg) (q : QueryState) (sch : Scheme)
    (s : String) : Except PyError (QueryState × QVal) :=
  match sch with
  | .cursor c =>
      if schemeContains reg c s then DBQueryField.getattr reg q c s
      else
        match DBQuery.spliceOrIntern q s with
        | (q', e) => .ok (q', .leaf e)
  | _ =>
      match DBQuery.spliceOrIntern q s with
      | (q', e) => .ok (q', .leaf e)

/-- The string branch of `DBQuery.resolve` (db_query.py:674-693), with
the dot-separated chunks alongside the string: a canonical path steps
through `getattr` on its first chunk and re-enters `resolve` on the
remainder `expr[expr.index(chr(46)) + 1:]`, which is the string with
the first chunk and one dot dropped; anything else goes through the
non-canonical branch. -/
def DBQuery.resolveStrChunks (reg : Reg) :
    QueryState → Scheme → List String → String →
      Except PyError (QueryState × QVal)
  | _, _, [], _ => .error .unmodelled
  | q, sch, cs@(c0 :: rest), s =>
      if decide (cs.length ≥ 2) && cs.all isCanonChunk then
        match schemeGetattr reg q sch c0 with
        | .error e => .error e
        | .ok (q', sub) =>
            DBQuery.resolveStrChunks reg q' (toScheme sub) rest
              (String.mk (s.data.drop (c0.data.length + 1)))
      else DBQuery.resolveNC reg q sch s

/-- The string branch of `DBQuery.resolve` (db_query.py:674-693). -/
def DBQuery.resolveStr (reg : Reg) (q : QueryState) (sch : Scheme)
    (s : String) : Except PyError (QueryState × QVal) :=
  if s = "" then .error .quazyFieldTypeError
  else DBQuery.resolveStrChunks reg q sch (splitOnDot s) s

/-- The key `DBQuery.arg` binds a value under (db_query.py:611-617):
the first existing key with an equal value, else the next `_arg_N`. -/
def DBQuery.argKey (q : QueryState) (v : PyVal) : String :=
  match pyFindArg q.args v with
  | some k => k
  | none => "_arg_" ++ toString (q.arg_counter + 1)

/-- An `FDBSQL` expression fed to `DBQuery.resolve`: a `DBSQL` node, a
plain value (strings and ints take their own branches inside `resolve`),
or a lambda receiving the scheme (its body is a state-threading function
here; the source then re-resolves the returned `DBSQL`).  The
`DBConditionField` and `DBTable`-instance branches of `resolve`
(db_query.py:696-703) are not modelled. -/
inductive FExpr where
  | sqlNode (e : DBSQL)
  | val (v : PyVal)
  | lam (f : QueryState → Scheme → Except PyError (QueryState × DBSQL))

/-- The `DBSQL` branch of `resolve` (db_query.py:670-673): an aggregated
expression marks the query as carrying aggregates. -/
def DBQuery.resolveDBSQL (q : QueryState) (e : DBSQL) : QueryState × QVal :=
  (if e.aggregated then { q with has_aggregates := true } else q, .leaf e)

/-- `DBQuery.resolve` (db_query.py:659-706).  Branch order follows the
source: callables first, then `DBSQL`, strings, exact ints (`type(expr)
is int` is false for `bool`), then `KNOWN_TYPES` values through `arg`;
`None` is of no known type and raises the field-type error. -/
def DBQuery.resolve (reg : Reg) (q : QueryState) (expr : FExpr) :
    Except PyError (QueryState × QVal) :=
  match expr with
  | .lam f =>
      match f q q.scheme with
      | .error e => .error e
      | .ok (q', e) => .ok (DBQuery.resolveDBSQL q' e)
  | .sqlNode e => .ok (DBQuery.resolveDBSQL q e)
  | .val (.vStr s) => DBQuery.resolveStr reg q q.scheme s
  | .val (.vInt i) => .ok (q, .leaf ⟨toString i, false⟩)
  | .val .vNone => .error .quazyFieldTypeError
  | .val v =>
      match DBQuery.argVal q v false with
      | (q', n) => .ok (q', .leaf n)

/-- The keyword loop of `DBQuery.filter` (db_query.py:844-845): each
pair appends `getattr(self.scheme, k) == v` to the filter list; when the
attribute is a cursor, `DBQueryField.__eq__` compares through its
primary key column (db_query.py:115-116,124-126). -/
def DBQuery.filterKw (reg : Reg) :
    QueryState → List (String × PyVal) → Except PyError QueryState
  | q, [] => .ok q
  | q, (k, v) :: rest =>
      match schemeGetattr reg q q.scheme k with
      | .error e => .error e
      | .ok (q', .leaf e) =>
          match e.eq q' (.val v) with
          | (q'', sql) =>
              DBQuery.filterKw reg
                { q'' with filters := q''.filters ++ [sql] } rest
      | .ok (q', .cursor c) =>
          match List.lookup c.table reg with
          | none => .error .unmodelled
          | some DB =>
            match DBQueryField.getattr reg q' c DB.pkColumn with
            | .error e => .error e
            | .ok (q'', .leaf pe) =>
                match pe.eq q'' (.val v) with
                | (q3, sql) =>
                    DBQuery.filterKw reg
                      { q3 with filters := q3.filters ++ [sql] } rest
            | .ok (_, .cursor _) => .error .unmodelled

/-- `DBQuery.filter` (db_query.py:814-846): the resolved expression goes
to the HAVING list when aggregated and to the WHERE list otherwise;
keyword filtering requires a bound table. -/
def DBQuery.filter (reg : Reg) (q : QueryState) (e? : Option FExpr)
    (kwargs : List (String × PyVal)) : Except PyError QueryState :=
  match DBQuery.check_frozen q with
  | .error err => .error err
  | .ok _ =>
    let afterExpr : Except PyError QueryState :=
      match e? with
      | none => .ok q
      | some ex =>
          match DBQuery.resolve reg q ex with
          | .error err => .error err
          | .ok (q', .leaf sql) =>
              if sql.aggregated then
                .ok { q' with group_filters := q'.group_filters ++ [sql] }
              else .ok { q' with filters := q'.filters ++ [sql] }
          | .ok (_, .cursor _) => .error .unmodelled
    match afterExpr with
    | .error err => .error err
    | .ok q1 =>
        if !kwargs.isEmpty && q1.bound_table.isNone then .error .quazyError
        else DBQuery.filterKw reg q1 kwargs

/-- `DBQuery.exclude` (db_query.py:850-879): the inverted expression is
routed like `filter`; the line `if self.table_class in None:`
(db_query.py:875) then performs a membership test on `None`, which
raises `TypeError` unconditionally, so the keyword branch is
unreachable. -/
def DBQuery.exclude (reg : Reg) (q : QueryState) (e? : Option FExpr) :
    Except PyError QueryState :=
  match DBQuery.check_frozen q with
  | .error err => .error err
  | .ok _ =>
    let afterExpr : Except PyError QueryState :=
      match e? with
      | none => .ok q
      | some ex =>
          match DBQuery.resolve reg q ex with
          | .error err => .error err
          | .ok (q', .leaf sql0) =>
              let sql := sql0.invert
              if sql.aggregated then
                .ok { q' with group_filters := q'.group_filters ++ [sql] }
              else .ok { q' with filters := q'.filters ++ [sql] }
          | .ok (_, .cursor _) => .error .unmodelled
    match afterExpr with
    | .error err => .error err
    | .ok _ => .error .typeError

/-- The positional-name loop of `DBQuery.select` (db_query.py:757-758). -/
def DBQuery.selectNames (reg : Reg) :
    QueryState → List String → Except PyError QueryState
  | q, [] => .ok q
  | q, n :: rest =>
      match DBQuery.resolve reg q (.val (.vStr n)) with
      | .error e => .error e
      | .ok (q', v) =>
          DBQuery.selectNames reg
            { q' with fields := dictSet q'.fields n v } rest

/-- The keyword loop of `DBQuery.select` (db_query.py:759-760). -/
def DBQuery.selectKw (reg : Reg) :
    QueryState → List (String × FExpr) → Except PyError QueryState
  | q, [] => .ok q
  | q, (k, ex) :: rest =>
      match DBQuery.resolve reg q ex with
      | .error e => .error e
      | .ok (q', v) =>
          DBQuery.selectKw reg
            { q' with fields := dictSet q'.fields k v } rest

/-- `DBQuery.select` (db_query.py:735-761).  On an object-fetching query
carrying `pk`, the source turns `field_names` into a Python set before
removing `pk`; its iteration order is unspecified, modelled here as the
order of first occurrence. -/
def DBQuery.select (reg : Reg) (q : QueryState) (field_names : List String)
    (fields : List (String × FExpr)) : Except PyError QueryState :=
  match DBQuery.check_frozen q with
  | .error err => .error err
  | .ok _ =>
    if field_names.isEmpty && fields.isEmpty then .ok q
    else
      let prefRes : Except PyError (QueryState × List String) :=
        if q.fetch_objects then
          if field_names.contains "pk" then
            match q.bound_table with
            | none => .error .unmodelled
            | some bt =>
              match List.lookup bt reg with
              | none => .error .unmodelled
              | some DB =>
                match q.scheme with
                | .cursor c =>
                    match List.lookup c.table reg with
                    | none => .error .unmodelled
                    | some cDB =>
                      match DBQueryField.getattr reg q c cDB.pkColumn with
                      | .error e => .error e
                      | .ok (q', v) =>
                          .ok ({ q' with fields :=
                                  dictSet q'.fields DB.pkColumn v },
                               (field_names.filter (· ≠ "pk")).eraseDups)
                | _ => .error .unmodelled
          else .ok ({ q with fetch_objects := false }, field_names)
        else .ok (q, field_names)
      match prefRes with
      | .error e => .error e
      | .ok (q1, names) =>
          match DBQuery.selectNames reg q1 names with
          | .error e => .error e
          | .ok q2 => DBQuery.selectKw reg q2 fields

/-- `DBQuery.select_all` (db_query.py:763-778). -/
def DBQuery.select_all (q : QueryState) : Except PyError QueryState :=
  match DBQuery.check_frozen q with
  | .error err => .error err
  | .ok _ =>
      .ok { q with fetch_objects := false,
                   fields := dictSet q.fields "*" (.leaf ⟨"*", false⟩) }

/-- `DBQuery.distinct` (db_query.py:790-797). -/
def DBQuery.distinct (q : QueryState) : Except PyError QueryState :=
  match DBQuery.check_frozen q with
  | .error err => .error err
  | .ok _ => .ok { q with is_distinct := true }

/-- The loop of `DBQuery.sort_by` (db_query.py:810-811). -/
def DBQuery.sortFold (reg : Reg) (desc : Bool) :
    QueryState → List FExpr → Except PyError QueryState
  | q, [] => .ok q
  | q, ex :: rest =>
      match DBQuery.resolve reg q ex with
      | .error e => .error e
      | .ok (q', .leaf e) =>
          let e := if desc then e.postfix_op "DESC" else e
          DBQuery.sortFold reg desc
            { q' with sort_list := q'.sort_list ++ [e] } rest
      | .ok (_, .cursor _) => .error .unmodelled

/-- `DBQuery.sort_by` (db_query.py:799-812). -/
def DBQuery.sort_by (reg : Reg) (q : QueryState) (fields : List FExpr)
    (desc : Bool) : Except PyError QueryState :=
  match DBQuery.check_frozen q with
  | .error err => .error err
  | .ok _ => DBQuery.sortFold reg desc q fields

/-- `DBQuery.group_filter` (db_query.py:881-896). -/
def DBQuery.group_filter (reg : Reg) (q : QueryState) (ex : FExpr) :
    Except PyError QueryState :=
  match DBQuery.check_frozen q with
  | .error err => .error err
  | .ok _ =>
      match DBQuery.resolve reg q ex with
      | .error e => .error e
      | .ok (q', .leaf sql) =>
          .ok { q' with group_filters := q'.group_filters ++ [sql] }
      | .ok (_, .cursor _) => .error .unmodelled

/-- The loop of `DBQuery.group_by` (db_query.py:910-911). -/
def DBQuery.groupFold (reg : Reg) :
    QueryState → List FExpr → Except PyError QueryState
  | q, [] => .ok q
  | q, ex :: rest =>
      match DBQuery.resolve reg q ex with
      | .error e => .error e
      | .ok (q', .leaf e) =>
          DBQuery.groupFold reg { q' with groups := q'.groups ++ [e] } rest
      | .ok (_, .cursor _) => .error .unmodelled

/-- `DBQuery.group_by` (db_query.py:898-912). -/
def DBQuery.group_by (reg : Reg) (q : QueryState) (fields : List FExpr) :
    Except PyError QueryState :=
  match DBQuery.check_frozen q with
  | .error err => .error err
  | .ok _ => DBQuery.groupFold reg q fields

/-- `DBQuery.set_window` (db_query.py:914-921). -/
def DBQuery.set_window (q : QueryState) (offset limit : Option Int) :
    Except PyError QueryState :=
  match DBQuery.check_frozen q with
  | .error err => .error err
  | .ok _ => .ok { q with window := (offset, limit) }

/-- What `with_query` reads off the imported subquery: its name, its own
`WITH` clauses and its argument table. -/
structure SubQueryInfo where
  qname : String
  with_queries : List WithClause := []
  args : List (String × PyVal) := []
  deriving Repr

/-- `DBQuery.with_query` (db_query.py:708-733).  Unlike every other
clause method it performs no `_check_frozen` call: it extends
`with_queries`, merges the subquery's arguments (namespacing the
`_arg_N` keys by the subquery name) and returns the subquery field
handle, frozen or not. -/
def DBQuery.with_query (q : QueryState) (sub : SubQueryInfo)
    (not_materialized : Bool) : QueryState × String :=
  let q := { q with with_queries :=
      q.with_queries ++ sub.with_queries ++ [⟨sub.qname, not_materialized⟩] }
  let q := sub.args.foldl (fun acc kv =>
      if strStarts kv.1 "_arg_" then
        { acc with args :=
            dictSet acc.args ("_" ++ sub.qname ++ kv.1) kv.2 }
      else { acc with args := dictSet acc.args kv.1 kv.2 }) q
  (q, sub.qname)

/-- `DBQuery.chained` (db_query.py:1169-1198). -/
def DBQuery.chained (reg : Reg) (q : QueryState)
    (id_name next_name : String) (start_value : PyVal) :
    Except PyError QueryState :=
  match DBQuery.check_frozen q with
  | .error err => .error err
  | .ok _ =>
    match q.bound_table with
    | none => .error .quazyWrongOperation
    | some bt =>
      match List.lookup bt reg with
      | none => .error .unmodelled
      | some DB =>
        if (List.lookup id_name DB.fields).isNone then
          .error .quazyFieldNameError
        else if (List.lookup next_name DB.fields).isNone then
          .error .quazyFieldNameError
        else
          let sel : Except PyError QueryState :=
            if !q.fetch_objects then
              DBQuery.select reg q [id_name, next_name] []
            else .ok q
          match sel with
          | .error e => .error e
          | .ok q1 =>
              match DBQuery.argVal q1 start_value false with
              | (q2, n) =>
                  .ok { q2 with
                        chained_opts := some (ChainedFilter.mk id_name next_name n) }

/-- The refill loop of `DBQuery._check_fields` (db_query.py:1000-1002):
non-body fields are resolved through the scheme and stored (reference
fields store the cursor itself, as in the source). -/
def DBQuery.checkFieldsFold (reg : Reg) :
    QueryState → Cursor → List (String × DBField) →
      Except PyError QueryState
  | q, _, [] => .ok q
  | q, c, (n, f) :: rest =>
      if f.body then DBQuery.checkFieldsFold reg q c rest
      else
        match DBQueryField.getattr reg q c n with
        | .error e => .error e
        | .ok (q', v) =>
            DBQuery.checkFieldsFold reg
              { q' with fields := dictSet q'.fields n v } c rest

/-- `DBQuery._check_fields` (db_query.py:994-1002). -/
def DBQuery.check_fields (reg : Reg) (q : QueryState) :
    Except PyError QueryState :=
  if !q.fields.isEmpty then .ok q
  else if !q.fetch_objects then .error .quazyError
  else
    match q.bound_table, q.scheme with
    | some bt, .cursor c =>
        match List.lookup bt reg with
        | none => .error .unmodelled
        | some DB => DBQuery.checkFieldsFold reg q c DB.fields
    | _, _ => .error .unmodelled

/-- `TranslatorPSQL.sql_value` (translator_psql.py:376-382) on a select
entry: `repr` of a `DBSQL` is its text, `str` of a `DBQueryField` is its
`_repr` (raising the wrong-operation error when the cursor has none,
db_query.py:110-113). -/
def sql_value_entry : QVal → Except PyError String
  | .leaf e => .ok e.sql_text
  | .cursor c =>
      match c.reprs with
      | some r => .ok r
      | none => .error .quazyWrongOperation

/-- `Translator.table_name` (translator.py:124-127). -/
def table_name (t : TableRec) : String :=
  "\"" ++ (if t.schema ≠ "" then t.schema ++ "\".\"" else "")
    ++ t.table ++ "\""

/-- `DBJoinKind.value` as source text. -/
def DBJoinKind.value : DBJoinKind → String
  | .SOURCE => "SOURCE"
  | .LEFT => "LEFT"
  | .RIGHT => "RIGHT"
  | .INNER => "INNER"
  | .OUTER => "OUTER"

/-- The select-list rendering loop of `TranslatorPSQL.select`
(translator_psql.py:424-430).  The `_view_` hook of every modelled
table is the default, which returns `None` (db_table.py:771-789), so no
`__view` companion column is appended. -/
def renderFields : List (String × QVal) → Except PyError (List String)
  | [] => .ok []
  | (n, v) :: rest =>
      match sql_value_entry v with
      | .error e => .error e
      | .ok s =>
          let entry := if n = "*" then s else s ++ " AS \"" ++ n ++ "\""
          match renderFields rest with
          | .error e => .error e
          | .ok l => .ok (entry :: l)

/-- The join rendering loop of `TranslatorPSQL.select`
(translator_psql.py:431-445): `SOURCE` entries feed the `FROM` list,
the others become join lines with the alias substituted into the
condition template. -/
def renderJoins (reg : Reg) :
    List (String × DBJoin) → Except PyError (List String × List String)
  | [] => .ok ([], [])
  | (jn, j) :: rest =>
      match renderJoins reg rest with
      | .error e => .error e
      | .ok (srcs, jlines) =>
          match j.kind with
          | .SOURCE =>
              match j.with_table with
              | .subquery n => .ok (n :: srcs, jlines)
              | .table tq =>
                  match List.lookup tq reg with
                  | none => .error .unmodelled
                  | some t =>
                      .ok ((table_name t ++ " AS \"" ++ jn ++ "\"") :: srcs,
                           jlines)
          | k =>
              let opStr := k.value ++ " JOIN"
              match j.with_table with
              | .subquery n => .ok ((opStr ++ " " ++ n) :: srcs, jlines)
              | .table tq =>
                  match List.lookup tq reg with
                  | none => .error .unmodelled
                  | some t =>
                      let cond :=
                        match j.condition with
                        | some cnd =>
                            "\n\tON " ++ (replaceSub cnd "{join_alias}" jn)
                        | none => ""
                      .ok (srcs,
                           (opStr ++ " " ++ table_name t ++ " AS \""
                             ++ jn ++ "\"" ++ cond) :: jlines)

/-- The `field.aggregated` read of the group-inference loop
(translator_psql.py:463): on a leaf it is the flag; on a cursor Python
goes through `DBQueryField.__getattr__`, and whatever object comes back
is truthy (an error propagates). -/
def aggFlagOfEntry (reg : Reg) (q : QueryState) (v : QVal) :
    Except PyError (QueryState × Bool) :=
  match v with
  | .leaf e => .ok (q, e.aggregated)
  | .cursor c =>
      match DBQueryField.getattr reg q c "aggregated" with
      | .error e => .error e
      | .ok (q', _) => .ok (q', true)

/-- The ordinal loop of the group-inference block
(translator_psql.py:462-464): the 1-based position of every
non-aggregated select entry. -/
def groupOrdinalsFold (reg : Reg) :
    QueryState → Nat → List (String × QVal) →
      Except PyError (QueryState × List String)
  | q, _, [] => .ok (q, [])
  | q, n, (_, v) :: rest =>
      match aggFlagOfEntry reg q v with
      | .error e => .error e
      | .ok (q', agg) =>
          match groupOrdinalsFold reg q' (n + 1) rest with
          | .error e => .error e
          | .ok (q'', l) =>
              .ok (q'', if agg then l else toString (n + 1) :: l)

/-- The GROUP BY entry computation of `TranslatorPSQL.select`
(translator_psql.py:458-464): the rendered explicit group expressions;
when there are none and the query carries aggregates, the 1-based
ordinals of the non-aggregated select entries instead. -/
def select_group_entries (reg : Reg) (q : QueryState) :
    Except PyError (QueryState × List String) :=
  let gs := q.groups.map (·.sql_text)
  if gs.isEmpty && q.has_aggregates then groupOrdinalsFold reg q 0 q.fields
  else .ok (q, gs)

/-- The main body of `TranslatorPSQL.select` (translator_psql.py:421-495)
for one `chained_mode`: clause rendering and assembly in source order
(SELECT, DISTINCT, select list, FROM/JOIN, WHERE, GROUP BY, HAVING,
ORDER BY, OFFSET, LIMIT). -/
def selectBody (reg : Reg) (q : QueryState) (chainedMode : Nat) :
    Except PyError (QueryState × String) :=
  match renderFields q.fields with
  | .error e => .error e
  | .ok fieldStrs =>
    match renderJoins reg q.joins with
    | .error e => .error e
    | .ok (sources, jlines0) =>
      let jlinesRes : Except PyError (List String) :=
        if chainedMode = 2 then
          match q.bound_table, q.chained_opts with
          | some bt, some co =>
              match List.lookup bt reg with
              | none => .error .unmodelled
              | some DB =>
                  .ok (jlines0 ++
                    ["INNER JOIN \"_chain\" as \"_chain\" \n\tON \""
                      ++ DB.table ++ "\".\"" ++ co.id_name
                      ++ "\" = \"_chain\".\"" ++ co.next_name ++ "\""])
          | _, _ => .error .unmodelled
        else .ok jlines0
      match jlinesRes with
      | .error e => .error e
      | .ok jlines =>
        let filtersRes : Except PyError (List String) :=
          if chainedMode = 1 then
            match q.bound_table, q.chained_opts with
            | some bt, some co =>
                match List.lookup bt reg with
                | none => .error .unmodelled
                | some DB =>
                    .ok (("\"" ++ DB.table ++ "\".\"" ++ co.id_name
                          ++ "\" = " ++ co.sql_value.sql_text)
                         :: q.filters.map (·.sql_text))
            | _, _ => .error .unmodelled
          else .ok (q.filters.map (·.sql_text))
        match filtersRes with
        | .error e => .error e
        | .ok filterStrs =>
          let groupFilterStrs := q.group_filters.map (·.sql_text)
          match select_group_entries reg q with
          | .error e => .error e
          | .ok (q', groupStrs) =>
            let orderStrs := q.sort_list.map (·.sql_text)
            if fieldStrs.isEmpty then .error .quazyTranslatorException
            else
              let sql :=
                (if q.is_distinct then "SELECT\nDISTINCT\n" else "SELECT\n")
                ++ "\t" ++ String.intercalate ",\n\t" fieldStrs ++ "\n"
                ++ (match sources with
                    | [] => ""
                    | s0 :: _ => "FROM " ++ s0 ++ "\n")
                ++ (if jlines.isEmpty then ""
                    else String.intercalate "\n" jlines ++ "\n")
                ++ (match sources with
                    | _ :: s1 :: srest =>
                        ", " ++ String.intercalate ", " (s1 :: srest) ++ "\n"
                    | _ => "")
                ++ (if filterStrs.isEmpty then ""
                    else "WHERE\n\t"
                      ++ String.intercalate "\n\tAND " filterStrs ++ "\n")
                ++ (if groupStrs.isEmpty then ""
                    else "GROUP BY\n\t"
                      ++ String.intercalate ",\n\t" groupStrs ++ "\n"
                      ++ (if groupFilterStrs.isEmpty then ""
                          else "HAVING\n\t"
                            ++ String.intercalate "\n\tAND " groupFilterStrs
                            ++ "\n"))
                ++ (if orderStrs.isEmpty then ""
                    else "ORDER BY\n\t"
                      ++ String.intercalate "\n\t" orderStrs ++ "\n")
                ++ (match q.window.1 with
                    | some o => "OFFSET " ++ toString o ++ "\n"
                    | none => "")
                ++ (match q.window.2 with
                    | some l => "LIMIT " ++ toString l ++ "\n"
                    | none => "")
              .ok (q', sql)

/-- `TranslatorPSQL.select` at the root (translator_psql.py:397-420,
`chained_mode = 0`, `is_root = True`): a chained query is compiled
twice (anchor and recursive branch) and wrapped in a recursive CTE.
`with_select` renders nested subqueries whose full states this model
records only by name, so queries carrying `WITH` clauses are out of the
modelled fragment. -/
def TranslatorPSQL.select (reg : Reg) (q : QueryState) :
    Except PyError (QueryState × String) :=
  if !q.with_queries.isEmpty then .error .unmodelled
  else
    match q.chained_opts with
    | some _ =>
        match selectBody reg q 1 with
        | .error e => .error e
        | .ok (q1, p1) =>
          match selectBody reg q1 2 with
          | .error e => .error e
          | .ok (q2, p2) =>
              .ok (q2, "\nWITH RECURSIVE \"_chain\" AS (\n" ++ p1
                    ++ "\nUNION\n" ++ p2 ++ "\n)\n"
                    ++ "SELECT * FROM \"_chain\"")
    | none => selectBody reg q 0

/-- `DBQuery.freeze` (db_query.py:1200-1207): check, refill the select
list if needed, compile through the translator and store the text. -/
def DBQuery.freeze (reg : Reg) (q : QueryState) : Except PyError QueryState :=
  match DBQuery.check_frozen q with
  | .error err => .error err
  | .ok _ =>
    match DBQuery.check_fields reg q with
    | .error e => .error e
    | .ok q1 =>
        match TranslatorPSQL.select reg q1 with
        | .error e => .error e
        | .ok (q2, sql) => .ok { q2 with frozen_sql := some sql }

/-- The primary-key designation over a field map: the last field flagged
`pk` wins, as in the loops of `collect_fields` (db_table.py:156-159) and
`_load_schema` (db_table.py:741-745). -/
def pkNameOf (fs : List (String × DBField)) : Option String :=
  ((fs.filter fun nf => nf.2.pk).getLast?).map (·.1)

/-- The type-resolution pass over every field of a loaded table. -/
def DBTable.resolveLoadedTypes (look : String → Option TypeTag)
    (t : TableRec) : TableRec :=
  { t with fields := t.fields.map fun nf =>
      (nf.1, DBField.applyPreType look nf.2) }

/-- Whether a select entry is a plain expression node. -/
def QVal.isLeaf : QVal → Bool
  | .leaf _ => true
  | .cursor _ => false

/-- Stated from the claim wording, for comparison with
`select_group_entries`: the 1-based ordinal position of each
non-aggregated select-list expression, counting from `n`. -/
def claimed_group_ordinals (n : Nat) : List (String × QVal) → List String
  | [] => []
  | (_, .leaf e) :: rest =>
      if e.aggregated then claimed_group_ordinals (n + 1) rest
      else toString (n + 1) :: claimed_group_ordinals (n + 1) rest
  | (_, .cursor _) :: rest => claimed_group_ordinals (n + 1) rest

/-- Compatibility of a dumped reference-type tag with the registry used
when the loaded schema's types are resolved: a tag that
`db_type_by_name` maps straight back to a class must name that class,
and any other tag must be found in the registry under a class whose
qualified name is the tag itself. -/
def refTagOK (look : String → Option TypeTag) (s : String) : Prop :=
  match db_type_by_name s with
  | .inl t0 => t0.qualOf = s
  | .inr n => ∃ t0, look n = some t0 ∧ t0.qualOf = n

namespace Fix

/-- Fixture: an `int` primary key field. -/
def fldId : DBField := { name := "id", column := "id", ftype := some .tInt, pk := true }

/-- Fixture: a plain `str` column. -/
def fldName : DBField := { name := "name", column := "name", ftype := some .tStr }

/-- Fixture: a required reference from `T` to `U`. -/
def fldF : DBField :=
  { name := "f", column := "f", ftype := some (.tTable "U"), ref := true, required := true }

/-- Fixture: an optional reference from `T` to `U`. -/
def fldG : DBField :=
  { name := "g", column := "g", ftype := some (.tTable "U"), ref := true, required := false }

/-- Fixture table `T` with storage name `t`. -/
def tabT : TableRec :=
  { qualname := "T", table := "t", snake := "ts", pkColumn := "id",
    fields := [("id", fldId), ("f", fldF), ("g", fldG), ("name", fldName)] }

/-- Fixture table `U` with storage name `u`. -/
def tabU : TableRec :=
  { qualname := "U", table := "u", snake := "us", pkColumn := "id",
    fields := [("id", fldId), ("name", fldName)] }

/-- Fixture table `P` owning a reverse one-to-many relation `kids`. -/
def tabP : TableRec :=
  { qualname := "P", table := "p", snake := "ps", pkColumn := "id",
    fields := [("id", fldId)],
    many_fields := [("kids", { foreign_table := "K", foreign_field := some "parent" })] }

/-- Fixture table `K`, the far side of `kids`. -/
def tabK : TableRec :=
  { qualname := "K", table := "k", snake := "ks", pkColumn := "id",
    fields := [("id", fldId), ("name", fldName)] }

/-- Fixture table `Book`, one side of a many-to-many relation. -/
def tabBook : TableRec :=
  { qualname := "Book", table := "book", snake := "books", pkColumn := "id",
    fields := [("id", fldId), ("name", fldName)],
    many_to_many_fields :=
      [("sellers", { foreign_table := "Seller", foreign_field := some "books",
                     middle_table := some "BookSeller" })] }

/-- Fixture table `Seller`. -/
def tabSeller : TableRec :=
  { qualname := "Seller", table := "seller", snake := "sellers", pkColumn := "id",
    fields := [("id", fldId), ("name", fldName)] }

/-- Fixture junction table for `Book`/`Seller`. -/
def tabBS : TableRec :=
  { qualname := "BookSeller", table := "book_seller", snake := "book_sellers",
    pkColumn := "id", fields := [("id", fldId)] }

/-- Fixture registry holding all relation fixtures. -/
def reg1 : Reg :=
  [("T", tabT), ("U", tabU), ("P", tabP), ("K", tabK),
   ("Book", tabBook), ("Seller", tabSeller), ("BookSeller", tabBS)]

/-- Fixture base cursor on `T`. -/
def cT : Cursor := { table := "T", alias' := "t" }

/-- Fixture query bound to `T`. -/
def q0 : QueryState :=
  { qname := "q1", bound_table := some "T",
    joins := [("t", { kind := .SOURCE, with_table := .table "T" })],
    scheme := .cursor cT, fetch_objects := true }

/-- Fixture unbound empty query. -/
def qe : QueryState := { qname := "qe" }

/-- Fixture frozen query: `freeze()` has stored compiled text. -/
def qFrozen : QueryState := { q0 with frozen_sql := some "SELECT 1" }

/-- Fixture subquery handle for `with_query`. -/
def subq : SubQueryInfo := { qname := "sub", args := [("_arg_1", .vInt 3), ("lim", .vInt 7)] }

/-- Fixture query with one aggregate and one plain select entry and no
explicit group keys. -/
def qAgg : QueryState :=
  { qname := "g", has_aggregates := true,
    fields := [("total", .leaf { sql_text := "sum(\"t\".\"x\")", aggregated := true }),
               ("name", .leaf { sql_text := "\"t\".\"name\"", aggregated := false })] }

/-- Fixture query with explicit group keys and aggregates. -/
def qGrp : QueryState :=
  { qAgg with groups := [{ sql_text := "\"t\".\"name\"", aggregated := false }] }

/-- Fixture fields of the dump/load round-trip table. -/
def fCid : DBField := { name := "cid", column := "cid", ftype := some .tStr, cid := true }

/-- Fixture: an optional reference to `Owner`. -/
def fOwner : DBField :=
  { name := "owner", column := "owner", ftype := some (.tTable "Owner"),
    ref := true, required := false }

/-- Fixture: an optional int with an SQL-level default. -/
def fQty : DBField :=
  { name := "qty", column := "qty", ftype := some .tInt, required := false,
    default_sql := some "0" }

/-- Fixture: an indexed int-enum field. -/
def fTag : DBField :=
  { name := "tag", column := "tag", ftype := some (.tIntEnum "Color"), indexed := true }

/-- Fixture: a unique str field. -/
def fCode : DBField := { name := "code", column := "code", ftype := some .tStr, unique := true }

/-- Fixture: the JSON body field. -/
def fData : DBField := { name := "data", column := "data", ftype := some .tDict, body := true }

/-- Fixture: a computed property backed by the body. -/
def fNick : DBField :=
  { name := "nick", column := "nick", ftype := some .tStr, property := true,
    required := false }

/-- Fixture table for the schema round trip, exercising every flag the
dump records. -/
def tabItem : TableRec :=
  { qualname := "Item", modname := "m", table := "item", schema := "pub",
    snake := "items", pkColumn := "id", bodyColumn := some "data",
    fields := [("id", fldId), ("cid", fCid), ("owner", fOwner), ("qty", fQty),
               ("tag", fTag), ("code", fCode), ("data", fData), ("nick", fNick)],
    extendable := true, discriminator := some "Item" }

/-- Fixture type registry for resolving the loaded `Owner` reference. -/
def lookOwner : String → Option TypeTag := fun n =>
  if n = "Owner" then some (.tTable "Owner") else none

/-- The expected query state after resolving the path `f.id` from the
base cursor of `q0`: the source join plus the reference join under the
deterministic alias. -/
def q0FS : QueryState :=
  { q0 with joins :=
      [("t", { kind := .SOURCE, with_table := .table "T" }),
       ("t__fs", { kind := .INNER, with_table := .table "U",
                   condition := some "\"t\".\"f\" = \"{join_alias}\".id" })] }

/-- The expected leaf of resolving `f.id` from `q0`. -/
def vFS : QVal := .leaf { sql_text := "\"t__fs\".\"id\"", aggregated := false }

/-- The dump of `tabItem` (the value of `DBTable.dump_schema`). -/
def dItem : TableDump :=
  { qualname := "Item", modname := "m", table := "item", schema := "pub",
    fields :=
      [("id", { name := "id", column := "id", ftype := "int", pk := true,
                required := true }),
       ("cid", { name := "cid", column := "cid", ftype := "str", cid := true,
                 required := true }),
       ("owner", { name := "owner", column := "owner", ftype := "Owner",
                   ref := true }),
       ("qty", { name := "qty", column := "qty", ftype := "int",
                 default_sql := some "0" }),
       ("tag", { name := "tag", column := "tag", ftype := "int",
                 required := true, indexed := true }),
       ("code", { name := "code", column := "code", ftype := "str",
                  required := true, unique := true }),
       ("data", { name := "data", column := "data", ftype := "dict",
                  body := true, required := true }),
       ("nick", { name := "nick", column := "nick", ftype := "str",
                  property := true })],
    extendable := true, discriminator := some "Item" }

/-- The table rebuilt by `DBTable.load_schema` from `dItem`, before type
resolution. -/
def tItem2 : TableRec :=
  { qualname := "Item", modname := "m", table := "item", schema := "pub",
    snake := "items", pkColumn := "id", bodyColumn := some "data",
    fields :=
      [("id", { name := "id", column := "id", pk := true,
                preType := some (.inl .tInt) }),
       ("cid", { name := "cid", column := "cid", cid := true,
                 preType := some (.inl .tStr) }),
       ("owner", { name := "owner", column := "owner", ref := true,
                   required := false, preType := some (.inr "Owner") }),
       ("qty", { name := "qty", column := "qty", required := false,
                 default_sql := some "0", preType := some (.inl .tInt) }),
       ("tag", { name := "tag", column := "tag", indexed := true,
                 preType := some (.inl .tInt) }),
       ("code", { name := "code", column := "code", unique := true,
                  preType := some (.inl .tStr) }),
       ("data", { name := "data", column := "data", body := true,
                  preType := some (.inl .tDict) }),
       ("nick", { name := "nick", column := "nick", property := true,
                  required := false, preType := some (.inl .tStr) })],
    extendable := true, discriminator := some "Item" }

/-- Fixture base cursor on `Book`. -/
def cBook : Cursor := { table := "Book", alias' := "book" }

/-- Fixture base cursor on `P`. -/
def cP : Cursor := { table := "P", alias' := "p" }

end Fix

/-! Helper lemmas. -/

theorem pyEq_refl (v : PyVal) : pyEq v v = true := by
  cases v <;> simp [pyEq, PyVal.num]

theorem pyFindArg_append_of_none {args : List (String × PyVal)} {v : PyVal}
    (h : pyFindArg args v = none) (k : String) :
    pyFindArg (args ++ [(k, v)]) v = some k := by
  induction args with
  | nil => simp [pyFindArg, pyEq_refl]
  | cons hd tl ih =>
      unfold pyFindArg at h ⊢
      cases hfd : pyEq hd.2 v with
      | true => simp [List.find?_cons, hfd] at h
      | false =>
          simp only [List.cons_append, List.find?_cons, hfd] at h ⊢
          exact ih h

theorem lookup_append_of_isSome {β : Type} {l : List (String × β)}
    {a : String} (l' : List (String × β))
    (h : (List.lookup a l).isSome) :
    List.lookup a (l ++ l') = List.lookup a l := by
  induction l with
  | nil => simp [List.lookup] at h
  | cons hd tl ih =>
      cases hk : (a == hd.1) with
      | true => simp [List.lookup, hk]
      | false =>
          simp only [List.lookup, hk, List.cons_append] at h ⊢
          exact ih h

theorem lookup_append_self {β : Type} (l : List (String × β)) (a : String)
    (b : β) : (List.lookup a (l ++ [(a, b)])).isSome := by
  induction l with
  | nil => simp [List.lookup]
  | cons hd tl ih =>
      cases hk : (a == hd.1) with
      | true => simp [List.lookup, hk]
      | false => simpa only [List.cons_append, List.lookup, hk] using ih

theorem registerAlias_lookup (q : QueryState) (c : Cursor) :
    (List.lookup c.alias' (registerAlias q c).joins).isSome := by
  unfold registerAlias
  split
  · assumption
  · exact lookup_append_self ..

theorem registerAlias_of_isSome {q : QueryState} {c : Cursor}
    (h : (List.lookup c.alias' q.joins).isSome) : registerAlias q c = q := by
  unfold registerAlias
  rw [if_pos h]

/-- C10: binding the value `None` renders the inline literal `NULL` with
no argument-table entry; `expr == None` therefore compiles to
`<expr>=NULL` through the equality operator, never to a bound parameter
and never to an `IS NULL` test, which only the separate
`is_null`/`is_not_null` helpers produce. -/
theorem quazy_c10_none_inline_null :
    (∀ (q : QueryState) (ag : Bool),
        DBQuery.argVal q .vNone ag = (q, ⟨"NULL", false⟩)) ∧
    (∀ (e : DBSQL) (q : QueryState),
        e.eq q (.val .vNone) = (q, ⟨e.sql_text ++ "=" ++ "NULL", e.aggregated⟩)) ∧
    (∀ e : DBSQL, e.is_null = ⟨e.sql_text ++ " IS NULL", e.aggregated⟩) ∧
    (∀ e : DBSQL, e.is_not_null = ⟨e.sql_text ++ " IS NOT NULL", e.aggregated⟩) := by
  refine ⟨fun q ag => rfl, fun e q => ?_, fun e => rfl, fun e => rfl⟩
  simp [DBSQL.eq, DBSQL.op, DBSQL.argm, DBQuery.arg, DBQuery.argVal,
        ArgLike.aggFlag, DBSQL.sql]

/-- C6: applying an aggregate function sets the aggregated flag; every
composition operator propagates the flag of its operands; and `filter`
routes an aggregated expression to the group-filter (HAVING) list and a
non-aggregated one to the WHERE filter list. -/
theorem quazy_c6_aggregated_flag_routing :
    (∀ (e : DBSQL) (o : String), (e.aggregate o).aggregated = true) ∧
    (∀ (e : DBSQL) (q : QueryState) (o : String) (a : ArgLike),
        ((e.op q o a).2).aggregated = (e.aggregated || a.aggFlag)) ∧
    (∀ (e : DBSQL) (q : QueryState) (o : String) (a : ArgLike),
        ((e.func2 q o a).2).aggregated = (e.aggregated || a.aggFlag)) ∧
    (∀ (e : DBSQL) (s : String), (e.sql s).aggregated = e.aggregated) ∧
    (∀ (e : DBSQL) (o : String), (e.func1 o).aggregated = e.aggregated) ∧
    (∀ (reg : Reg) (q : QueryState) (e : DBSQL), q.frozen_sql = none →
        DBQuery.filter reg q (some (.sqlNode e)) [] =
          .ok (if e.aggregated then
                 { q with has_aggregates := true,
                          group_filters := q.group_filters ++ [e] }
               else { q with filters := q.filters ++ [e] })) := by
  refine ⟨fun e o => rfl, fun e q o a => rfl, fun e q o a => rfl,
          fun e s => rfl, fun e o => rfl, fun reg q e hfr => ?_⟩
  cases he : e.aggregated with
  | true =>
      simp [DBQuery.filter, DBQuery.check_frozen, hfr, DBQuery.resolve,
            DBQuery.resolveDBSQL, DBQuery.filterKw, he]
  | false =>
      simp [DBQuery.filter, DBQuery.check_frozen, hfr, DBQuery.resolve,
            DBQuery.resolveDBSQL, DBQuery.filterKw, he]

/-- Witness for C6 at a concrete aggregated expression. -/
theorem quazy_c6_witness :
    (DBSQL.aggregate ⟨"\"t\".\"x\"", false⟩ "sum").aggregated = true ∧
    DBQuery.filter Fix.reg1 Fix.qe
        (some (.sqlNode ⟨"sum(\"t\".\"x\")", true⟩)) [] =
      .ok { Fix.qe with has_aggregates := true,
                        group_filters := [⟨"sum(\"t\".\"x\")", true⟩] } := by
  refine ⟨quazy_c6_aggregated_flag_routing.1 _ _, ?_⟩
  rw [quazy_c6_aggregated_flag_routing.2.2.2.2.2 Fix.reg1 Fix.qe
        ⟨"sum(\"t\".\"x\")", true⟩ (by decide)]
  decide

theorem splitDotGo_ne_nil : ∀ (l : List Char) (acc : List Char),
    splitDotGo acc l ≠ [] := by
  intro l
  induction l with
  | nil => intro acc; simp [splitDotGo]
  | cons c cs ih =>
      intro acc
      by_cases hc : c = '.'
      · simp [splitDotGo, hc]
      · simp only [splitDotGo, if_neg hc]
        exact ih _

theorem splitOnDot_ne_nil (s : String) : splitOnDot s ≠ [] := by
  unfold splitOnDot
  intro h
  exact splitDotGo_ne_nil s.data [] (List.map_eq_nil_iff.mp h)

theorem resolveStrChunks_not_canonical (reg : Reg) (q : QueryState)
    (sch : Scheme) (c0 : String) (rest : List String) (s : String)
    (h : (decide ((c0 :: rest).length ≥ 2) &&
        (c0 :: rest).all isCanonChunk) = false) :
    DBQuery.resolveStrChunks reg q sch (c0 :: rest) s =
      DBQuery.resolveNC reg q sch s := by
  unfold DBQuery.resolveStrChunks
  rw [h]
  simp

/-- C2 (amended): a plain value other than `None` supplied as an
operator operand renders as a named placeholder and is interned in the
argument table; but `resolve` splices non-canonical string constants
shorter than 1024 characters into the text through `repr`, splices int
literals as decimal text, and only interns strings of length 1024 or
more. -/
theorem quazy_c2_literal_routing :
    (∀ (e : DBSQL) (q : QueryState) (o : String) (v : PyVal), v ≠ .vNone →
        ((e.op q o (.val v)).2).sql_text =
            e.sql_text ++ o ++ place_arg (DBQuery.argKey q v) ∧
          pyFindArg ((e.op q o (.val v)).1).args v =
            some (DBQuery.argKey q v)) ∧
    (∀ (reg : Reg) (q : QueryState) (s : String), q.scheme = .dbscheme →
        s ≠ "" → is_expression_canonical s = false → s.length < 1024 →
        DBQuery.resolve reg q (.val (.vStr s)) =
          .ok (q, .leaf ⟨pyReprStr s, false⟩)) ∧
    (∀ (reg : Reg) (q : QueryState) (i : Int),
        DBQuery.resolve reg q (.val (.vInt i)) =
          .ok (q, .leaf ⟨toString i, false⟩)) ∧
    (∀ (reg : Reg) (q : QueryState) (s : String), q.scheme = .dbscheme →
        s ≠ "" → is_expression_canonical s = false → 1024 ≤ s.length →
        DBQuery.resolve reg q (.val (.vStr s)) =
          .ok ((DBQuery.argVal q (.vStr s) false).1,
               .leaf (DBQuery.argVal q (.vStr s) false).2)) := by
  refine ⟨fun e q o v hv => ?_, fun reg q s hsch hne hcan hlt => ?_,
          fun reg q i => rfl, fun reg q s hsch hne hcan hge => ?_⟩
  · cases hk : pyFindArg q.args v with
    | some k =>
        simp [DBSQL.op, DBSQL.argm, DBQuery.arg, DBQuery.argVal,
              DBQuery.argKey, ArgLike.aggFlag, hv, hk]
    | none =>
        simp [DBSQL.op, DBSQL.argm, DBQuery.arg, DBQuery.argVal,
              DBQuery.argKey, ArgLike.aggFlag, hv, hk,
              pyFindArg_append_of_none hk]
  · obtain ⟨c0, rest, hcs⟩ := List.exists_cons_of_ne_nil (splitOnDot_ne_nil s)
    have hcan' : (decide ((c0 :: rest).length ≥ 2) &&
        (c0 :: rest).all isCanonChunk) = false := by
      rw [← hcs]; exact hcan
    simp only [DBQuery.resolve, DBQuery.resolveStr, if_neg hne, hcs]
    rw [resolveStrChunks_not_canonical _ _ _ _ _ _ hcan', hsch]
    simp [DBQuery.resolveNC, DBQuery.spliceOrIntern, hlt]
  · obtain ⟨c0, rest, hcs⟩ := List.exists_cons_of_ne_nil (splitOnDot_ne_nil s)
    have hcan' : (decide ((c0 :: rest).length ≥ 2) &&
        (c0 :: rest).all isCanonChunk) = false := by
      rw [← hcs]; exact hcan
    have hnlt : ¬ s.length < 1024 := by omega
    simp only [DBQuery.resolve, DBQuery.resolveStr, if_neg hne, hcs]
    rw [resolveStrChunks_not_canonical _ _ _ _ _ _ hcan', hsch]
    simp [DBQuery.resolveNC, DBQuery.spliceOrIntern, hnlt]

/-- Counterexample to C2 as stated: resolving the constant select
expression `promo` leaves the argument table empty and returns the
quoted literal spliced into the SQL text, not a named placeholder. -/
theorem quazy_c2_counterexample :
    DBQuery.resolve Fix.reg1 Fix.qe (.val (.vStr "promo")) =
        .ok (Fix.qe, .leaf ⟨pyReprStr "promo", false⟩) ∧
      Fix.qe.args = [] ∧
      pyReprStr "promo" = squote ++ "promo" ++ squote := by
  exact ⟨by decide, rfl, by decide⟩

/-- Witness for C2 (amended) at concrete inputs: the operand `18` of a
comparison renders as a placeholder and is stored; the int literal `7`
is spliced as decimal text. -/
theorem quazy_c2_witness :
    ((DBSQL.op ⟨"\"t\".\"age\"", false⟩ Fix.qe ">" (.val (.vInt 18))).2).sql_text =
        "\"t\".\"age\"" ++ ">" ++ place_arg (DBQuery.argKey Fix.qe (.vInt 18)) ∧
      pyFindArg ((DBSQL.op ⟨"\"t\".\"age\"", false⟩ Fix.qe ">" (.val (.vInt 18))).1).args
          (.vInt 18) = some (DBQuery.argKey Fix.qe (.vInt 18)) ∧
      DBQuery.resolve Fix.reg1 Fix.qe (.val (.vInt 7)) =
        .ok (Fix.qe, .leaf ⟨toString (7 : Int), false⟩) := by
  obtain ⟨h1, h2⟩ := quazy_c2_literal_routing.1 ⟨"\"t\".\"age\"", false⟩ Fix.qe ">"
    (.vInt 18) (by decide)
  exact ⟨h1, h2, quazy_c2_literal_routing.2.2.1 Fix.reg1 Fix.qe 7⟩

/-- C8: argument binding is idempotent per value: the placeholder key of
an equal, already-stored value is reused, the second request leaves the
state unchanged, and a fresh value adds exactly one entry. -/
theorem quazy_c8_arg_interning :
    ∀ (q : QueryState) (v : PyVal) (ag ag2 : Bool), v ≠ .vNone →
      (DBQuery.argVal q v ag).2 = ⟨place_arg (DBQuery.argKey q v), ag⟩ ∧
      DBQuery.argVal ((DBQuery.argVal q v ag).1) v ag2 =
        ((DBQuery.argVal q v ag).1, ⟨place_arg (DBQuery.argKey q v), ag2⟩) ∧
      (pyFindArg q.args v = none →
        ((DBQuery.argVal q v ag).1).args = q.args ++ [(DBQuery.argKey q v, v)] ∧
        ((DBQuery.argVal q v ag).1).arg_counter = q.arg_counter + 1) ∧
      (∀ k0, pyFindArg q.args v = some k0 →
        DBQuery.argKey q v = k0 ∧ (DBQuery.argVal q v ag).1 = q) := by
  intro q v ag ag2 hv
  cases hk : pyFindArg q.args v with
  | some k =>
      simp [DBQuery.argVal, DBQuery.argKey, hv, hk]
  | none =>
      simp [DBQuery.argVal, DBQuery.argKey, hv, hk,
            pyFindArg_append_of_none hk]

/-- Witness for C8: binding `5` twice in one query yields the single
entry `_arg_1` and the second request returns the same placeholder with
the state unchanged. -/
theorem quazy_c8_witness :
    (DBQuery.argVal Fix.qe (.vInt 5) false).2 =
        ⟨place_arg (DBQuery.argKey Fix.qe (.vInt 5)), false⟩ ∧
      DBQuery.argVal ((DBQuery.argVal Fix.qe (.vInt 5) false).1) (.vInt 5) false =
        ((DBQuery.argVal Fix.qe (.vInt 5) false).1,
         ⟨place_arg (DBQuery.argKey Fix.qe (.vInt 5)), false⟩) ∧
      ((DBQuery.argVal Fix.qe (.vInt 5) false).1).args =
        Fix.qe.args ++ [(DBQuery.argKey Fix.qe (.vInt 5), .vInt 5)] ∧
      DBQuery.argKey Fix.qe (.vInt 5) = "_arg_1" := by
  obtain ⟨h1, h2, h3, _⟩ :=
    quazy_c8_arg_interning Fix.qe (.vInt 5) false false (by decide)
  exact ⟨h1, h2, (h3 (by decide)).1, by decide⟩

theorem groupOrdinalsFold_leaves (reg : Reg) :
    ∀ (fields : List (String × QVal)) (q : QueryState) (n : Nat),
      (∀ nv ∈ fields, nv.2.isLeaf = true) →
      groupOrdinalsFold reg q n fields =
        .ok (q, claimed_group_ordinals n fields) := by
  intro fields
  induction fields with
  | nil => intro q n _; rfl
  | cons hd tl ih =>
      intro q n h
      have hl := h hd (by simp)
      cases hd with
      | mk nm v =>
        cases v with
        | cursor c => simp [QVal.isLeaf] at hl
        | leaf e =>
            have ihr := ih q (n + 1) (fun nv hnv => h nv (by simp [hnv]))
            simp [groupOrdinalsFold, aggFlagOfEntry, ihr,
                  claimed_group_ordinals]

/-- C7: compiling a query with at least one aggregate and no explicit
group keys adds to GROUP BY the 1-based ordinal of each non-aggregated
select-list expression; explicit group keys suppress the inference and
are emitted as given. -/
theorem quazy_c7_group_ordinal_inference :
    (∀ (reg : Reg) (q : QueryState), q.groups = [] →
        q.has_aggregates = true →
        (∀ nv ∈ q.fields, nv.2.isLeaf = true) →
        select_group_entries reg q =
          .ok (q, claimed_group_ordinals 0 q.fields)) ∧
    (∀ (reg : Reg) (q : QueryState), q.groups ≠ [] →
        select_group_entries reg q =
          .ok (q, q.groups.map (·.sql_text))) := by
  constructor
  · intro reg q hg ha hleaf
    simp [select_group_entries, hg, ha, groupOrdinalsFold_leaves reg q.fields q 0 hleaf]
  · intro reg q hg
    have hne : (q.groups.map (·.sql_text)).isEmpty = false := by
      cases hgs : q.groups with
      | nil => exact absurd hgs hg
      | cons a l => simp
    simp [select_group_entries, hne]

/-- Witness for C7: a select list of one aggregate and one plain column
yields the one-element GROUP BY `2`; an explicit group key is emitted
as given, with no ordinal entries. -/
theorem quazy_c7_witness :
    select_group_entries Fix.reg1 Fix.qAgg = .ok (Fix.qAgg, ["2"]) ∧
    select_group_entries Fix.reg1 Fix.qGrp =
      .ok (Fix.qGrp, ["\"t\".\"name\""]) := by
  constructor
  · rw [quazy_c7_group_ordinal_inference.1 Fix.reg1 Fix.qAgg rfl rfl (by decide)]
    decide
  · rw [quazy_c7_group_ordinal_inference.2 Fix.reg1 Fix.qGrp (by decide)]
    decide

theorem lookup_none_not_mem {β : Type} {l : List (String × β)} {a : String}
    (h : List.lookup a l = none) : a ∉ l.map Prod.fst := by
  induction l with
  | nil => simp
  | cons hd tl ih =>
      cases hk : (a == hd.1) with
      | true => simp [List.lookup, hk] at h
      | false =>
          simp only [List.lookup, hk] at h
          simp only [List.map_cons, List.mem_cons]
          rintro (rfl | hmem)
          · simp at hk
          · exact ih h hmem

theorem nodup_keys_append_fresh {β : Type} {l : List (String × β)}
    {a : String} (b : β) (h : List.lookup a l = none)
    (hnd : (l.map Prod.fst).Nodup) :
    ((l ++ [(a, b)]).map Prod.fst).Nodup := by
  rw [List.map_append]
  refine List.Nodup.append hnd (by simp) ?_
  intro x hx hx'
  simp at hx'
  subst hx'
  exact lookup_none_not_mem h hx

theorem registerAlias_nodup {q : QueryState} {c : Cursor}
    (hnd : (q.joins.map Prod.fst).Nodup) :
    (((registerAlias q c).joins).map Prod.fst).Nodup := by
  unfold registerAlias
  split
  · exact hnd
  · next hmem =>
      exact nodup_keys_append_fresh _
        (Option.not_isSome_iff_eq_none.mp hmem) hnd

/-- State discipline of the resolver core: a successful access either
leaves the query untouched or registers exactly one fresh join (the
many-to-many junction); and the access is stable under any further
join-only extension of the resulting state. -/
theorem getattrCore_spec {reg : Reg} {q : QueryState} {c : Cursor}
    {item : String} {q1 : QueryState} {r : QVal}
    (h : DBQueryField.getattrCore reg q c item = .ok (q1, r)) :
    (q1 = q ∨ ∃ mid j, List.lookup mid q.joins = none ∧
        q1 = { q with joins := q.joins ++ [(mid, j)] }) ∧
    (∀ q2 : QueryState, (∃ l, q2.joins = q1.joins ++ l) →
        q2 = { q1 with joins := q2.joins } →
        DBQueryField.getattrCore reg q2 c item = .ok (q2, r)) := by
  unfold DBQueryField.getattrCore at h ⊢
  cases h1 : List.lookup c.table reg with
  | none =>
      simp only [h1] at h
      exact Except.noConfusion h
  | some DB =>
  simp only [h1] at h ⊢
  cases h2 : List.lookup item DB.fields with
  | some field =>
      simp only [h2] at h ⊢
      cases h3 : fieldPath DB c field item with
      | error e =>
          simp only [h3] at h
          exact Except.noConfusion h
      | ok fp =>
        simp only [h3] at h ⊢
        by_cases hr : field.ref = true
        · simp only [if_pos hr] at h ⊢
          cases h5 : field.ftype with
          | none =>
              simp only [h5] at h
              exact Except.noConfusion h
          | some tt =>
            simp only [h5] at h ⊢
            cases tt with
            | tInt => simp at h
            | tStr => simp at h
            | tFloat => simp at h
            | tBool => simp at h
            | tBytes => simp at h
            | tDatetime => simp at h
            | tTimedelta => simp at h
            | tDate => simp at h
            | tTime => simp at h
            | tDecimal => simp at h
            | tUUID => simp at h
            | tDict => simp at h
            | tIntEnum n => simp at h
            | tStrEnum n => simp at h
            | tTable tq =>
              cases h6 : List.lookup tq reg with
              | none =>
                  simp only [h6] at h
                  exact Except.noConfusion h
              | some tgt =>
                  simp only [h6, Except.ok.injEq, Prod.mk.injEq] at h ⊢
                  obtain ⟨hq, hr'⟩ := h
                  subst hq; subst hr'
                  exact ⟨Or.inl rfl, fun q2 _ hq2 => by simp⟩
        · simp only [if_neg hr, Except.ok.injEq, Prod.mk.injEq] at h ⊢
          obtain ⟨hq, hr'⟩ := h
          subst hq; subst hr'
          exact ⟨Or.inl rfl, fun q2 _ hq2 => by simp⟩
  | none =>
    simp only [h2] at h ⊢
    cases h7 : List.lookup item DB.subtables with
    | some subq =>
        simp only [h7, Except.ok.injEq, Prod.mk.injEq] at h ⊢
        obtain ⟨hq, hr'⟩ := h
        subst hq; subst hr'
        exact ⟨Or.inl rfl, fun q2 _ hq2 => by simp⟩
    | none =>
      simp only [h7] at h ⊢
      cases h8 : List.lookup item DB.many_fields with
      | some mf =>
          simp only [h8, Except.ok.injEq, Prod.mk.injEq] at h ⊢
          obtain ⟨hq, hr'⟩ := h
          subst hq; subst hr'
          exact ⟨Or.inl rfl, fun q2 _ hq2 => by simp⟩
      | none =>
        simp only [h8] at h ⊢
        cases h9 : List.lookup item DB.many_to_many_fields with
        | none =>
            simp only [h9] at h
            exact Except.noConfusion h
        | some mm =>
          simp only [h9] at h ⊢
          cases h10 : mm.middle_table with
          | none =>
              simp only [h10] at h
              exact Except.noConfusion h
          | some midq =>
            simp only [h10] at h ⊢
            cases h11 : List.lookup midq reg with
            | none =>
                simp only [h11] at h
                exact Except.noConfusion h
            | some mid =>
              simp only [h11] at h ⊢
              cases h12 : List.lookup mm.foreign_table reg with
              | none =>
                  simp only [h12] at h
                  exact Except.noConfusion h
              | some ft =>
                simp only [h12] at h ⊢
                by_cases hmem : (List.lookup mid.table q.joins).isSome = true
                · simp only [if_pos hmem, Except.ok.injEq, Prod.mk.injEq] at h
                  obtain ⟨hq, hr'⟩ := h
                  subst hq; subst hr'
                  refine ⟨Or.inl rfl, fun q2 hext hq2 => ?_⟩
                  obtain ⟨l, hl⟩ := hext
                  have hs : (List.lookup mid.table q2.joins).isSome = true := by
                    rw [hl, lookup_append_of_isSome l hmem]
                    exact hmem
                  simp only [if_pos hs, Except.ok.injEq, Prod.mk.injEq]
                · simp only [if_neg hmem, Except.ok.injEq, Prod.mk.injEq] at h
                  obtain ⟨hq, hr'⟩ := h
                  subst hq; subst hr'
                  refine ⟨Or.inr ⟨mid.table, _,
                    Option.not_isSome_iff_eq_none.mp hmem, rfl⟩,
                    fun q2 hext hq2 => ?_⟩
                  obtain ⟨l, hl⟩ := hext
                  have hs0 : (List.lookup mid.table
                      (q.joins ++ [(mid.table,
                        (⟨.INNER, .table midq,
                          some ("\"" ++ c.alias' ++ "\"." ++ DB.pkColumn
                            ++ " = \"" ++ mid.table ++ "\"." ++ DB.table)⟩ :
                          DBJoin))])).isSome = true :=
                    lookup_append_self ..
                  have hs : (List.lookup mid.table q2.joins).isSome = true := by
                    rw [hl]
                    rw [lookup_append_of_isSome l hs0]
                    exact hs0
                  simp only [if_pos hs, Except.ok.injEq, Prod.mk.injEq]

theorem registerAlias_shape (q : QueryState) (c : Cursor) :
    (∃ l, (registerAlias q c).joins = q.joins ++ l) ∧
      registerAlias q c = { q with joins := (registerAlias q c).joins } := by
  unfold registerAlias
  split
  · exact ⟨⟨[], by simp⟩, rfl⟩
  · exact ⟨⟨_, rfl⟩, rfl⟩

/-- A successful `__getattr__` only appends join entries, and is stable
under any further join-only extension of its result state. -/
theorem getattr_spec {reg : Reg} {q : QueryState} {c : Cursor}
    {item : String} {q1 : QueryState} {r : QVal}
    (h : DBQueryField.getattr reg q c item = .ok (q1, r)) :
    ((∃ l, q1.joins = q.joins ++ l) ∧ q1 = { q with joins := q1.joins }) ∧
    (∀ q2 : QueryState, (∃ l, q2.joins = q1.joins ++ l) →
        q2 = { q1 with joins := q2.joins } →
        DBQueryField.getattr reg q2 c item = .ok (q2, r)) := by
  unfold DBQueryField.getattr at h ⊢
  by_cases hu : strStarts item "_" = true
  · rw [if_pos hu] at h; exact Except.noConfusion h
  · rw [if_neg hu] at h
    obtain ⟨hshape, hstable⟩ := getattrCore_spec h
    obtain ⟨⟨la, hla⟩, hra⟩ := registerAlias_shape q c
    have hext1 : (∃ l, q1.joins = q.joins ++ l) ∧
        q1 = { q with joins := q1.joins } := by
      rcases hshape with rfl | ⟨mid, j, hmid, hq1⟩
      · exact ⟨⟨la, hla⟩, hra⟩
      · subst hq1
        constructor
        · exact ⟨la ++ [(mid, j)], by simp [hla]⟩
        · rw [hra]
    refine ⟨hext1, fun q2 hext2 hq2 => ?_⟩
    rw [if_neg hu]
    have halias : (List.lookup c.alias' q2.joins).isSome = true := by
      obtain ⟨l2, hl2⟩ := hext2
      have h1s : (List.lookup c.alias' q1.joins).isSome = true := by
        rcases hshape with rfl | ⟨mid, j, hmid, hq1⟩
        · exact registerAlias_lookup q c
        · subst hq1
          have := registerAlias_lookup q c
          simp only []
          rw [lookup_append_of_isSome _ this]
          exact this
      rw [hl2, lookup_append_of_isSome _ h1s]
      exact h1s
    rw [registerAlias_of_isSome halias]
    exact hstable q2 hext2 hq2

/-- Path resolution only appends joins, and re-resolving the same path
from the resulting state succeeds with the identical result and no
state change. -/
theorem resolvePath_spec {reg : Reg} :
    ∀ {p : List String} {q : QueryState} {c : Cursor} {q1 : QueryState}
      {r : QVal},
      DBQueryField.resolvePath reg q c p = .ok (q1, r) →
      ((∃ l, q1.joins = q.joins ++ l) ∧ q1 = { q with joins := q1.joins }) ∧
      DBQueryField.resolvePath reg q1 c p = .ok (q1, r) := by
  intro p
  induction p with
  | nil =>
      intro q c q1 r h
      unfold DBQueryField.resolvePath at h ⊢
      simp only [Except.ok.injEq, Prod.mk.injEq] at h
      obtain ⟨hq, hr⟩ := h
      subst hq; subst hr
      exact ⟨⟨⟨[], by simp⟩, rfl⟩, rfl⟩
  | cons n rest ih =>
      intro q c q1 r h
      unfold DBQueryField.resolvePath at h ⊢
      cases hg : DBQueryField.getattr reg q c n with
      | error e => rw [hg] at h; exact Except.noConfusion h
      | ok p1 =>
          rw [hg] at h
          obtain ⟨qa, v⟩ := p1
          cases v with
          | cursor c1 =>
              obtain ⟨⟨hext1, heq1⟩, _⟩ := getattr_spec hg
              obtain ⟨⟨hext2, heq2⟩, hidem⟩ := ih h
              have hext : (∃ l, q1.joins = q.joins ++ l) := by
                obtain ⟨l1, hl1⟩ := hext1
                obtain ⟨l2, hl2⟩ := hext2
                exact ⟨l1 ++ l2, by rw [hl2, hl1, List.append_assoc]⟩
              have heq : q1 = { q with joins := q1.joins } := by
                rw [heq2, heq1]
              refine ⟨⟨hext, heq⟩, ?_⟩
              have hg2 : DBQueryField.getattr reg q1 c n = .ok (q1, .cursor c1) :=
                (getattr_spec hg).2 q1 hext2 heq2
              rw [hg2]
              exact hidem
          | leaf e =>
              cases rest with
              | nil =>
                  simp only [Except.ok.injEq, Prod.mk.injEq] at h
                  obtain ⟨hq, hr⟩ := h
                  subst hq; subst hr
                  obtain ⟨⟨hext1, heq1⟩, hstab⟩ := getattr_spec hg
                  refine ⟨⟨hext1, heq1⟩, ?_⟩
                  have hg2 : DBQueryField.getattr reg qa c n = .ok (qa, .leaf e) :=
                    hstab qa ⟨[], by simp⟩ rfl
                  rw [hg2]
              | cons m ms => exact Except.noConfusion h

theorem getattr_nodup {reg : Reg} {q : QueryState} {c : Cursor}
    {item : String} {q1 : QueryState} {r : QVal}
    (h : DBQueryField.getattr reg q c item = .ok (q1, r))
    (hnd : (q.joins.map Prod.fst).Nodup) :
    (q1.joins.map Prod.fst).Nodup := by
  unfold DBQueryField.getattr at h
  by_cases hu : strStarts item "_" = true
  · rw [if_pos hu] at h; exact Except.noConfusion h
  · rw [if_neg hu] at h
    obtain ⟨hshape, _⟩ := getattrCore_spec h
    have hnda := registerAlias_nodup (c := c) hnd
    rcases hshape with rfl | ⟨mid, j, hmid, hq1⟩
    · exact hnda
    · subst hq1
      exact nodup_keys_append_fresh _ hmid hnda

theorem resolvePath_nodup {reg : Reg} :
    ∀ {p : List String} {q : QueryState} {c : Cursor} {q1 : QueryState}
      {r : QVal},
      DBQueryField.resolvePath reg q c p = .ok (q1, r) →
      (q.joins.map Prod.fst).Nodup → (q1.joins.map Prod.fst).Nodup := by
  intro p
  induction p with
  | nil =>
      intro q c q1 r h hnd
      unfold DBQueryField.resolvePath at h
      simp only [Except.ok.injEq, Prod.mk.injEq] at h
      obtain ⟨hq, _⟩ := h
      subst hq
      exact hnd
  | cons n rest ih =>
      intro q c q1 r h hnd
      unfold DBQueryField.resolvePath at h
      cases hg : DBQueryField.getattr reg q c n with
      | error e => rw [hg] at h; exact Except.noConfusion h
      | ok p1 =>
          rw [hg] at h
          obtain ⟨qa, v⟩ := p1
          cases v with
          | cursor c1 => exact ih h (getattr_nodup hg hnd)
          | leaf e =>
              cases rest with
              | nil =>
                  simp only [Except.ok.injEq, Prod.mk.injEq] at h
                  obtain ⟨hq, _⟩ := h
                  subst hq
                  exact getattr_nodup hg hnd
              | cons m ms => exact Except.noConfusion h

theorem lookup_append_eq_of_none {β : Type} {l : List (String × β)}
    {a : String} (h : List.lookup a l = none) (b : β) :
    List.lookup a (l ++ [(a, b)]) = some b := by
  induction l with
  | nil => simp [List.lookup]
  | cons hd tl ih =>
      cases hk : (a == hd.1) with
      | true => simp [List.lookup, hk] at h
      | false =>
          simp only [List.lookup, hk] at h
          simpa only [List.cons_append, List.lookup, hk] using ih h

/-- Evaluation of `__getattr__` on a non-property reference field: the
returned cursor carries the deterministic alias built from the source
table's storage name and the field name with a trailing `s`, and a join
whose kind follows the `required` flag. -/
theorem getattr_ref_eq {reg : Reg} {q : QueryState} {c : Cursor}
    {fname : String} {DB tgt : TableRec} {fld : DBField} {tq : String}
    (h1 : List.lookup c.table reg = some DB)
    (h2 : List.lookup fname DB.fields = some fld)
    (hp : fld.property = false)
    (hr : fld.ref = true)
    (ht : fld.ftype = some (.tTable tq))
    (h6 : List.lookup tq reg = some tgt)
    (hu : strStarts fname "_" = false) :
    DBQueryField.getattr reg q c fname =
      .ok (registerAlias q c, .cursor
        ⟨tq, DB.table ++ "__" ++ fld.name ++ "s",
         some ⟨(if fld.required then .INNER else .LEFT), .table tq,
           some ("\"" ++ c.alias' ++ "\".\"" ++ fld.column ++ "\""
             ++ " = \"{join_alias}\"." ++ tgt.pkColumn)⟩,
         some ("\"" ++ c.alias' ++ "\".\"" ++ fld.column ++ "\"")⟩) := by
  unfold DBQueryField.getattr
  rw [if_neg (by simp [hu])]
  unfold DBQueryField.getattrCore
  simp only [h1, h2, fieldPath, hp, Bool.not_false, if_true, hr, ht, h6]

/-- Evaluation of `__getattr__` on a reverse one-to-many relation name:
a LEFT join to the far table under `<sourceAlias>__<relationName>`. -/
theorem getattr_many_eq {reg : Reg} {q : QueryState} {c : Cursor}
    {item : String} {DB : TableRec} {mf : DBManyField}
    (h1 : List.lookup c.table reg = some DB)
    (h2 : List.lookup item DB.fields = none)
    (h7 : List.lookup item DB.subtables = none)
    (h8 : List.lookup item DB.many_fields = some mf)
    (hu : strStarts item "_" = false) :
    DBQueryField.getattr reg q c item =
      .ok (registerAlias q c, .cursor
        ⟨mf.foreign_table, c.alias' ++ "__" ++ item,
         some ⟨.LEFT, .table mf.foreign_table,
           some ("\"" ++ c.alias' ++ "\"." ++ DB.pkColumn
             ++ " = \"{join_alias}\"." ++ pyStrOpt mf.foreign_field)⟩,
         none⟩) := by
  unfold DBQueryField.getattr
  rw [if_neg (by simp [hu])]
  unfold DBQueryField.getattrCore
  simp only [h1, h2, h7, h8]

/-- Evaluation of `__getattr__` on a many-to-many relation name whose
junction is not yet registered: an INNER junction join registered under
the junction table's storage name, and a cursor carrying an INNER join
to the far table under `<sourceAlias>__<relationName>`. -/
theorem getattr_m2m_eq {reg : Reg} {q : QueryState} {c : Cursor}
    {item : String} {DB mid ft : TableRec} {mm : DBManyToManyField}
    {midq : String}
    (h1 : List.lookup c.table reg = some DB)
    (h2 : List.lookup item DB.fields = none)
    (h7 : List.lookup item DB.subtables = none)
    (h8 : List.lookup item DB.many_fields = none)
    (h9 : List.lookup item DB.many_to_many_fields = some mm)
    (h10 : mm.middle_table = some midq)
    (h11 : List.lookup midq reg = some mid)
    (h12 : List.lookup mm.foreign_table reg = some ft)
    (hu : strStarts item "_" = false)
    (hmid : (List.lookup mid.table (registerAlias q c).joins).isSome = false) :
    DBQueryField.getattr reg q c item =
      .ok ({ registerAlias q c with
             joins := (registerAlias q c).joins ++
               [(mid.table, ⟨.INNER, .table midq,
                 some ("\"" ++ c.alias' ++ "\"." ++ DB.pkColumn
                   ++ " = \"" ++ mid.table ++ "\"." ++ DB.table)⟩)] },
           .cursor
             ⟨mm.foreign_table, c.alias' ++ "__" ++ item,
              some ⟨.INNER, .table mm.foreign_table,
                some ("\"" ++ mid.table ++ "\"." ++ ft.table
                  ++ " = \"{join_alias}\"." ++ ft.pkColumn)⟩,
              none⟩) := by
  unfold DBQueryField.getattr
  rw [if_neg (by simp [hu])]
  unfold DBQueryField.getattrCore
  simp only [h1, h2, h7, h8, h9, h10, h11, h12, hmid, Bool.false_eq_true,
    if_false]

/-- C3: a join alias is registered at most once per query: re-resolving
the same relationship path leaves the state unchanged with the same
result and join keys stay duplicate-free; and for a required reference
field the resolver produces the deterministic alias carrying an INNER
join, first registration winning over any later attempt. -/
theorem quazy_c3_join_alias_once :
    (∀ (reg : Reg) (q : QueryState) (c : Cursor) (p : List String)
        (q1 : QueryState) (r : QVal),
        DBQueryField.resolvePath reg q c p = .ok (q1, r) →
        DBQueryField.resolvePath reg q1 c p = .ok (q1, r) ∧
          ((q.joins.map Prod.fst).Nodup → (q1.joins.map Prod.fst).Nodup)) ∧
    (∀ (reg : Reg) (q : QueryState) (c : Cursor) (fname : String)
        (DB tgt : TableRec) (fld : DBField) (tq : String),
        List.lookup c.table reg = some DB →
        List.lookup fname DB.fields = some fld →
        fld.property = false → fld.ref = true → fld.required = true →
        fld.ftype = some (.tTable tq) →
        List.lookup tq reg = some tgt →
        strStarts fname "_" = false →
        DBQueryField.getattr reg q c fname =
          .ok (registerAlias q c, .cursor
            ⟨tq, DB.table ++ "__" ++ fld.name ++ "s",
             some ⟨.INNER, .table tq,
               some ("\"" ++ c.alias' ++ "\".\"" ++ fld.column ++ "\""
                 ++ " = \"{join_alias}\"." ++ tgt.pkColumn)⟩,
             some ("\"" ++ c.alias' ++ "\".\"" ++ fld.column ++ "\"")⟩) ∧
        (∀ qn : QueryState,
          (List.lookup (DB.table ++ "__" ++ fld.name ++ "s") qn.joins = none →
            List.lookup (DB.table ++ "__" ++ fld.name ++ "s")
              (registerAlias qn
                ⟨tq, DB.table ++ "__" ++ fld.name ++ "s",
                 some ⟨.INNER, .table tq,
                   some ("\"" ++ c.alias' ++ "\".\"" ++ fld.column ++ "\""
                     ++ " = \"{join_alias}\"." ++ tgt.pkColumn)⟩,
                 some ("\"" ++ c.alias' ++ "\".\"" ++ fld.column ++ "\"")⟩).joins =
              some ⟨.INNER, .table tq,
                some ("\"" ++ c.alias' ++ "\".\"" ++ fld.column ++ "\""
                  ++ " = \"{join_alias}\"." ++ tgt.pkColumn)⟩) ∧
          (∀ j0, List.lookup (DB.table ++ "__" ++ fld.name ++ "s") qn.joins =
              some j0 →
            registerAlias qn
              ⟨tq, DB.table ++ "__" ++ fld.name ++ "s",
               some ⟨.INNER, .table tq,
                 some ("\"" ++ c.alias' ++ "\".\"" ++ fld.column ++ "\""
                   ++ " = \"{join_alias}\"." ++ tgt.pkColumn)⟩,
               some ("\"" ++ c.alias' ++ "\".\"" ++ fld.column ++ "\"")⟩ = qn))) := by
  constructor
  · intro reg q c p q1 r h
    exact ⟨(resolvePath_spec h).2, resolvePath_nodup h⟩
  · intro reg q c fname DB tgt fld tq h1 h2 hp hr hreq ht h6 hu
    constructor
    · have h := getattr_ref_eq (q := q) h1 h2 hp hr ht h6 hu
      rw [hreq] at h
      simpa using h
    · intro qn
      constructor
      · intro hnone
        unfold registerAlias
        rw [if_neg (by simp [hnone])]
        exact lookup_append_eq_of_none hnone _
      · intro j0 hsome
        exact registerAlias_of_isSome (by simp [hsome])

/-- Witness for C3: resolving `f.id` twice on the fixture query yields
the identical state and result, the join keys are duplicate-free, and
the single registered reference join is INNER under `t__fs`. -/
theorem quazy_c3_witness :
    DBQueryField.resolvePath Fix.reg1 Fix.q0 Fix.cT ["f", "id"] =
        .ok (Fix.q0FS, Fix.vFS) ∧
      DBQueryField.resolvePath Fix.reg1 Fix.q0FS Fix.cT ["f", "id"] =
        .ok (Fix.q0FS, Fix.vFS) ∧
      (Fix.q0FS.joins.map Prod.fst).Nodup ∧
      List.lookup "t__fs" Fix.q0FS.joins =
        some ⟨.INNER, .table "U", some "\"t\".\"f\" = \"{join_alias}\".id"⟩ := by
  have h : DBQueryField.resolvePath Fix.reg1 Fix.q0 Fix.cT ["f", "id"] =
      .ok (Fix.q0FS, Fix.vFS) := by decide
  obtain ⟨hidem, hnd⟩ :=
    quazy_c3_join_alias_once.1 Fix.reg1 Fix.q0 Fix.cT ["f", "id"]
      Fix.q0FS Fix.vFS h
  exact ⟨h, hidem, hnd (by decide), by decide⟩

/-- C4 (amended): accessing a reference field returns a cursor on the
target table whose join alias is `<tableName>__<fieldName>s`, built from
the storage name of the cursor's table (not its current alias) with an
`s` appended; the join kind is INNER when the reference is required and
LEFT otherwise. -/
theorem quazy_c4_ref_cursor_join :
    ∀ (reg : Reg) (q : QueryState) (c : Cursor) (fname : String)
      (DB tgt : TableRec) (fld : DBField) (tq : String),
      List.lookup c.table reg = some DB →
      List.lookup fname DB.fields = some fld →
      fld.property = false → fld.ref = true →
      fld.ftype = some (.tTable tq) →
      List.lookup tq reg = some tgt →
      strStarts fname "_" = false →
      DBQueryField.getattr reg q c fname =
        .ok (registerAlias q c, .cursor
          ⟨tq, DB.table ++ "__" ++ fld.name ++ "s",
           some ⟨(if fld.required then DBJoinKind.INNER else DBJoinKind.LEFT),
             .table tq,
             some ("\"" ++ c.alias' ++ "\".\"" ++ fld.column ++ "\""
               ++ " = \"{join_alias}\"." ++ tgt.pkColumn)⟩,
           some ("\"" ++ c.alias' ++ "\".\"" ++ fld.column ++ "\"")⟩) :=
  fun _ _ _ _ _ _ _ _ h1 h2 hp hr ht h6 hu =>
    getattr_ref_eq h1 h2 hp hr ht h6 hu

/-- Counterexample to C4 as stated: the required reference `f` on table
`t` registers its join under `t__fs`, not under the claimed
`<sourceAlias>__<fieldName>` alias `t__f`. -/
theorem quazy_c4_counterexample :
    DBQueryField.resolvePath Fix.reg1 Fix.q0 Fix.cT ["f", "id"] =
        .ok (Fix.q0FS, Fix.vFS) ∧
      List.lookup (Fix.cT.alias' ++ "__" ++ "f") Fix.q0FS.joins = none ∧
      List.lookup "t__fs" Fix.q0FS.joins =
        some ⟨.INNER, .table "U", some "\"t\".\"f\" = \"{join_alias}\".id"⟩ := by
  refine ⟨by decide, by decide, by decide⟩

/-- Witness for C4 (amended): the required reference `f` yields the
INNER-joined cursor aliased `t__fs`; the optional reference `g` yields
LEFT. -/
theorem quazy_c4_witness :
    DBQueryField.getattr Fix.reg1 Fix.q0 Fix.cT "f" =
        .ok (registerAlias Fix.q0 Fix.cT, .cursor
          ⟨"U", Fix.tabT.table ++ "__" ++ Fix.fldF.name ++ "s",
           some ⟨(if Fix.fldF.required then DBJoinKind.INNER else DBJoinKind.LEFT),
             .table "U",
             some ("\"" ++ Fix.cT.alias' ++ "\".\"" ++ Fix.fldF.column ++ "\""
               ++ " = \"{join_alias}\"." ++ Fix.tabU.pkColumn)⟩,
           some ("\"" ++ Fix.cT.alias' ++ "\".\"" ++ Fix.fldF.column ++ "\"")⟩) ∧
      (if Fix.fldF.required then DBJoinKind.INNER else DBJoinKind.LEFT) =
        DBJoinKind.INNER ∧
      DBQueryField.getattr Fix.reg1 Fix.q0 Fix.cT "g" =
        .ok (registerAlias Fix.q0 Fix.cT, .cursor
          ⟨"U", Fix.tabT.table ++ "__" ++ Fix.fldG.name ++ "s",
           some ⟨(if Fix.fldG.required then DBJoinKind.INNER else DBJoinKind.LEFT),
             .table "U",
             some ("\"" ++ Fix.cT.alias' ++ "\".\"" ++ Fix.fldG.column ++ "\""
               ++ " = \"{join_alias}\"." ++ Fix.tabU.pkColumn)⟩,
           some ("\"" ++ Fix.cT.alias' ++ "\".\"" ++ Fix.fldG.column ++ "\"")⟩) ∧
      (if Fix.fldG.required then DBJoinKind.INNER else DBJoinKind.LEFT) =
        DBJoinKind.LEFT := by
  refine ⟨?_, by decide, ?_, by decide⟩
  · exact quazy_c4_ref_cursor_join Fix.reg1 Fix.q0 Fix.cT "f" Fix.tabT Fix.tabU
      Fix.fldF "U" (by decide) (by decide) (by decide) (by decide) (by decide)
      (by decide) (by decide)
  · exact quazy_c4_ref_cursor_join Fix.reg1 Fix.q0 Fix.cT "g" Fix.tabT Fix.tabU
      Fix.fldG "U" (by decide) (by decide) (by decide) (by decide) (by decide)
      (by decide) (by decide)

/-- C5 (amended): a reverse one-to-many relation name registers a LEFT
join to the related table under `<sourceAlias>__<relationName>`; a
many-to-many relation name registers an INNER join through the junction
table (under the junction table's storage name) and an INNER join — not
a LEFT join — to the related table under
`<sourceAlias>__<relationName>`. -/
theorem quazy_c5_relation_joins :
    (∀ (reg : Reg) (q : QueryState) (c : Cursor) (item : String)
        (DB : TableRec) (mf : DBManyField),
        List.lookup c.table reg = some DB →
        List.lookup item DB.fields = none →
        List.lookup item DB.subtables = none →
        List.lookup item DB.many_fields = some mf →
        strStarts item "_" = false →
        DBQueryField.getattr reg q c item =
          .ok (registerAlias q c, .cursor
            ⟨mf.foreign_table, c.alias' ++ "__" ++ item,
             some ⟨.LEFT, .table mf.foreign_table,
               some ("\"" ++ c.alias' ++ "\"." ++ DB.pkColumn
                 ++ " = \"{join_alias}\"." ++ pyStrOpt mf.foreign_field)⟩,
             none⟩)) ∧
    (∀ (reg : Reg) (q : QueryState) (c : Cursor) (item : String)
        (DB mid ft : TableRec) (mm : DBManyToManyField) (midq : String),
        List.lookup c.table reg = some DB →
        List.lookup item DB.fields = none →
        List.lookup item DB.subtables = none →
        List.lookup item DB.many_fields = none →
        List.lookup item DB.many_to_many_fields = some mm →
        mm.middle_table = some midq →
        List.lookup midq reg = some mid →
        List.lookup mm.foreign_table reg = some ft →
        strStarts item "_" = false →
        (List.lookup mid.table (registerAlias q c).joins).isSome = false →
        DBQueryField.getattr reg q c item =
          .ok ({ registerAlias q c with
                 joins := (registerAlias q c).joins ++
                   [(mid.table, ⟨.INNER, .table midq,
                     some ("\"" ++ c.alias' ++ "\"." ++ DB.pkColumn
                       ++ " = \"" ++ mid.table ++ "\"." ++ DB.table)⟩)] },
               .cursor
                 ⟨mm.foreign_table, c.alias' ++ "__" ++ item,
                  some ⟨.INNER, .table mm.foreign_table,
                    some ("\"" ++ mid.table ++ "\"." ++ ft.table
                      ++ " = \"{join_alias}\"." ++ ft.pkColumn)⟩,
                  none⟩)) := by
  constructor
  · intro reg q c item DB mf h1 h2 h7 h8 hu
    exact getattr_many_eq h1 h2 h7 h8 hu
  · intro reg q c item DB mid ft mm midq h1 h2 h7 h8 h9 h10 h11 h12 hu hmid
    exact getattr_m2m_eq h1 h2 h7 h8 h9 h10 h11 h12 hu hmid

/-- Counterexample to C5 as stated: the join to the related table of the
many-to-many relation `sellers` is INNER, not the claimed LEFT. -/
theorem quazy_c5_counterexample :
    DBQueryField.getattr Fix.reg1 Fix.qe Fix.cBook "sellers" =
        .ok ({ Fix.qe with joins :=
                 [("book", { kind := .SOURCE, with_table := .table "Book" }),
                  ("book_seller",
                   { kind := .INNER, with_table := .table "BookSeller",
                     condition := some "\"book\".id = \"book_seller\".book" })] },
             .cursor
               ⟨"Seller", "book__sellers",
                some ⟨.INNER, .table "Seller",
                  some "\"book_seller\".seller = \"{join_alias}\".id"⟩,
                none⟩) ∧
      DBJoinKind.INNER ≠ DBJoinKind.LEFT := by
  exact ⟨by decide, by decide⟩

/-- Witness for C5 (amended): `kids` on `P` yields the LEFT join under
`p__kids`; `sellers` on `Book` registers the junction INNER join under
`book_seller` and yields the INNER join under `book__sellers`. -/
theorem quazy_c5_witness :
    DBQueryField.getattr Fix.reg1 Fix.qe Fix.cP "kids" =
        .ok (registerAlias Fix.qe Fix.cP, .cursor
          ⟨"K", Fix.cP.alias' ++ "__" ++ "kids",
           some ⟨.LEFT, .table "K",
             some ("\"" ++ Fix.cP.alias' ++ "\"." ++ Fix.tabP.pkColumn
               ++ " = \"{join_alias}\"." ++
                 pyStrOpt (some "parent"))⟩,
           none⟩) ∧
      DBQueryField.getattr Fix.reg1 Fix.qe Fix.cBook "sellers" =
        .ok ({ registerAlias Fix.qe Fix.cBook with
               joins := (registerAlias Fix.qe Fix.cBook).joins ++
                 [(Fix.tabBS.table, ⟨.INNER, .table "BookSeller",
                   some ("\"" ++ Fix.cBook.alias' ++ "\"." ++ Fix.tabBook.pkColumn
                     ++ " = \"" ++ Fix.tabBS.table ++ "\"." ++ Fix.tabBook.table)⟩)] },
             .cursor
               ⟨"Seller", Fix.cBook.alias' ++ "__" ++ "sellers",
                some ⟨.INNER, .table "Seller",
                  some ("\"" ++ Fix.tabBS.table ++ "\"." ++ Fix.tabSeller.table
                    ++ " = \"{join_alias}\"." ++ Fix.tabSeller.pkColumn)⟩,
                none⟩) := by
  constructor
  · have h := quazy_c5_relation_joins.1 Fix.reg1 Fix.qe Fix.cP "kids" Fix.tabP
      { foreign_table := "K", foreign_field := some "parent" }
      (by decide) (by decide) (by decide) (by decide) (by decide)
    exact h
  · exact quazy_c5_relation_joins.2 Fix.reg1 Fix.qe Fix.cBook "sellers"
      Fix.tabBook Fix.tabBS Fix.tabSeller
      { foreign_table := "Seller", foreign_field := some "books",
        middle_table := some "BookSeller" }
      "BookSeller" (by decide) (by decide) (by decide) (by decide) (by decide)
      (by decide) (by decide) (by decide) (by decide) (by decide)

theorem dictSet_fresh {α : Type} {l : List (String × α)} {k : String}
    {v : α} (h : List.lookup k l = none) : dictSet l k v = l ++ [(k, v)] := by
  induction l with
  | nil => rfl
  | cons hd tl ih =>
      cases hk : (k == hd.1) with
      | true => simp [List.lookup, hk] at h
      | false =>
          simp only [List.lookup, hk] at h
          have hne : hd.1 ≠ k := by
            intro he; simp [he] at hk
          simp only [dictSet, if_neg hne, List.cons_append]
          rw [ih h]

theorem lookup_append_single_ne {β : Type} {l : List (String × β)}
    {a k : String} (h : List.lookup a l = none) (hne : a ≠ k) (b : β) :
    List.lookup a (l ++ [(k, b)]) = none := by
  have hak : (a == k) = false := by simp [hne]
  induction l with
  | nil => simp [List.lookup, hak]
  | cons hd tl ih =>
      cases hk : (a == hd.1) with
      | true => simp [List.lookup, hk] at h
      | false =>
          simp only [List.lookup, hk] at h
          simpa only [List.cons_append, List.lookup, hk] using ih h

theorem db_type_name_rt (tt : TypeTag) (n : String)
    (h : db_type_name tt = some n) :
    (∃ t0, db_type_by_name n = Sum.inl t0 ∧ db_type_name t0 = some n) ∧
      n ≠ "FieldBody" := by
  cases tt with
  | tInt => injection h with h; subst h; exact ⟨⟨.tInt, by decide, by decide⟩, by decide⟩
  | tStr => injection h with h; subst h; exact ⟨⟨.tStr, by decide, by decide⟩, by decide⟩
  | tFloat => injection h with h; subst h; exact ⟨⟨.tFloat, by decide, by decide⟩, by decide⟩
  | tBool => injection h with h; subst h; exact ⟨⟨.tBool, by decide, by decide⟩, by decide⟩
  | tBytes => injection h with h; subst h; exact ⟨⟨.tBytes, by decide, by decide⟩, by decide⟩
  | tDatetime => injection h with h; subst h; exact ⟨⟨.tDatetime, by decide, by decide⟩, by decide⟩
  | tTimedelta => injection h with h; subst h; exact ⟨⟨.tTimedelta, by decide, by decide⟩, by decide⟩
  | tDate => injection h with h; subst h; exact ⟨⟨.tDate, by decide, by decide⟩, by decide⟩
  | tTime => injection h with h; subst h; exact ⟨⟨.tTime, by decide, by decide⟩, by decide⟩
  | tDecimal => injection h with h; subst h; exact ⟨⟨.tDecimal, by decide, by decide⟩, by decide⟩
  | tUUID => injection h with h; subst h; exact ⟨⟨.tUUID, by decide, by decide⟩, by decide⟩
  | tDict => injection h with h; subst h; exact ⟨⟨.tDict, by decide, by decide⟩, by decide⟩
  | tIntEnum s => injection h with h; subst h; exact ⟨⟨.tInt, by decide, by decide⟩, by decide⟩
  | tStrEnum s => injection h with h; subst h; exact ⟨⟨.tStr, by decide, by decide⟩, by decide⟩
  | tTable q => exact Option.noConfusion h

theorem db_type_by_name_inr {s n : String}
    (h : db_type_by_name s = Sum.inr n) : n = s := by
  unfold db_type_by_name at h
  by_cases h1 : s = "int"
  · rw [if_pos h1] at h; exact Sum.noConfusion h
  rw [if_neg h1] at h
  by_cases h2 : s = "str"
  · rw [if_pos h2] at h; exact Sum.noConfusion h
  rw [if_neg h2] at h
  by_cases h3 : s = "float"
  · rw [if_pos h3] at h; exact Sum.noConfusion h
  rw [if_neg h3] at h
  by_cases h4 : s = "bool"
  · rw [if_pos h4] at h; exact Sum.noConfusion h
  rw [if_neg h4] at h
  by_cases h5 : s = "bytes"
  · rw [if_pos h5] at h; exact Sum.noConfusion h
  rw [if_neg h5] at h
  by_cases h6 : s = "datetime"
  · rw [if_pos h6] at h; exact Sum.noConfusion h
  rw [if_neg h6] at h
  by_cases h7 : s = "timedelta"
  · rw [if_pos h7] at h; exact Sum.noConfusion h
  rw [if_neg h7] at h
  by_cases h8 : s = "date"
  · rw [if_pos h8] at h; exact Sum.noConfusion h
  rw [if_neg h8] at h
  by_cases h9 : s = "time"
  · rw [if_pos h9] at h; exact Sum.noConfusion h
  rw [if_neg h9] at h
  by_cases h10 : s = "Decimal"
  · rw [if_pos h10] at h; exact Sum.noConfusion h
  rw [if_neg h10] at h
  by_cases h11 : s = "UUID"
  · rw [if_pos h11] at h; exact Sum.noConfusion h
  rw [if_neg h11] at h
  by_cases h12 : s = "dict"
  · rw [if_pos h12] at h; exact Sum.noConfusion h
  rw [if_neg h12] at h
  by_cases h13 : s = "IntEnum"
  · rw [if_pos h13] at h; exact Sum.noConfusion h
  rw [if_neg h13] at h
  by_cases h14 : s = "StrEnum"
  · rw [if_pos h14] at h; exact Sum.noConfusion h
  rw [if_neg h14] at h
  injection h with h
  exact h.symm

theorem prepare_self {f : DBField} {n : String} (h1 : f.name = n)
    (h2 : f.column ≠ "") : DBField.prepare f n = f := by
  subst h1
  unfold DBField.prepare
  simp [h2]

theorem body_update_self {f : DBField} (h : f.body = true) :
    { f with body := true } = f := by
  cases f
  simp_all

theorem load_pk (d : FieldDump) :
    (DBField.load_schema d).pk = d.pk := by
  simp only [DBField.load_schema, DBField.post_init, DBField.prepare]
  split <;> split <;> rfl

theorem load_schema_eq (d : FieldDump) (hcol : d.column ≠ "") :
    DBField.load_schema d =
      { name := d.name, column := d.column, ftype := none, pk := d.pk,
        cid := d.cid, ref := d.ref, body := d.body, property := d.property,
        required := d.required, indexed := d.indexed, unique := d.unique,
        hasDefault := false, default_sql := d.default_sql,
        preType := some (db_type_by_name d.ftype) } := by
  obtain ⟨dn, dc, dft, dpk, dcid, dref, dbody, dprop, dreq, dind, duni, dds⟩ := d
  simp only [DBField.load_schema, DBField.post_init, DBField.prepare]
  cases dds <;> simp_all

theorem dump_schema_props {f : DBField} {d : FieldDump}
    (h : DBField.dump_schema f = .ok d) :
    d.name = f.name ∧ d.column = f.column ∧ d.ref = f.ref ∧ d.pk = f.pk ∧
      d.body = f.body ∧
      (d.default_sql = none ∨ ∃ s, d.default_sql = some s ∧ s ≠ "") ∧
      (d.ref = false →
        ∃ t0, db_type_by_name d.ftype = Sum.inl t0 ∧
          db_type_name t0 = some d.ftype) ∧
      (d.ref = true → ∃ t1, f.ftype = some t1 ∧ d.ftype = TypeTag.qualOf t1) := by
  unfold DBField.dump_schema at h
  cases href : f.ref with
  | false =>
      cases hft : f.ftype with
      | none => simp [href, hft] at h
      | some t1 =>
          cases hn : db_type_name t1 with
          | none => simp [href, hft, hn] at h
          | some n =>
              simp only [href, hft, hn, Bool.false_eq_true, if_false] at h
              obtain ⟨t0, hbn, hname⟩ := (db_type_name_rt t1 n hn).1
              injection h with h
              subst h
              refine ⟨rfl, rfl, by simp [href], rfl, rfl, ?_, ?_, ?_⟩
              · rcases hds : f.default_sql with _ | s
                · left; simp
                · by_cases hs : s = ""
                  · left; simp [hs]
                  · right; exact ⟨s, by simp [hs], hs⟩
              · intro _
                exact ⟨t0, hbn, hname⟩
              · intro hc
                simp [href] at hc
  | true =>
      cases hft : f.ftype with
      | none => simp [href, hft] at h
      | some t1 =>
          simp only [href, if_true] at h
          simp only [hft] at h
          injection h with h
          subst h
          refine ⟨rfl, rfl, by simp [href], rfl, rfl, ?_, ?_, ?_⟩
          · rcases hds : f.default_sql with _ | s
            · left; simp
            · by_cases hs : s = ""
              · left; simp [hs]
              · right; exact ⟨s, by simp [hs], hs⟩
          · intro hc
            simp [href] at hc
          · intro _
            exact ⟨t1, rfl, rfl⟩

theorem dump_of_load (look : String → Option TypeTag) (d : FieldDump)
    (hcol : d.column ≠ "")
    (hnorm : d.default_sql = none ∨ ∃ s, d.default_sql = some s ∧ s ≠ "")
    (htype : d.ref = false →
      ∃ t0, db_type_by_name d.ftype = Sum.inl t0 ∧ db_type_name t0 = some d.ftype)
    (href : d.ref = true → refTagOK look d.ftype) :
    DBField.dump_schema (DBField.applyPreType look (DBField.load_schema d)) =
      .ok d := by
  obtain ⟨dn, dc, dft, dpk, dcid, dref, dbody, dprop, dreq, dind, duni, dds⟩ := d
  rw [load_schema_eq _ hcol]
  unfold DBField.applyPreType
  simp only at htype href hnorm ⊢
  cases hbn : db_type_by_name dft with
  | inl t0 =>
      simp only [hbn]
      cases dref with
      | false =>
          obtain ⟨t0', hbn', hname⟩ := htype rfl
          have ht0 : t0 = t0' := by
            have h2 := hbn.symm.trans hbn'
            injection h2
          subst ht0
          rcases hnorm with hds | ⟨s, hds, hs⟩ <;> subst hds
          · simp [DBField.dump_schema, hname]
          · simp [DBField.dump_schema, hname, hs]
      | true =>
          have hOK := href rfl
          unfold refTagOK at hOK
          simp only [hbn] at hOK
          rcases hnorm with hds | ⟨s, hds, hs⟩ <;> subst hds
          · simp [DBField.dump_schema, hOK]
          · simp [DBField.dump_schema, hOK, hs]
  | inr n =>
      simp only [hbn]
      have hn : n = dft := db_type_by_name_inr hbn
      subst hn
      cases dref with
      | false =>
          obtain ⟨t0', hbn', hname⟩ := htype rfl
          rw [hbn'] at hbn
          exact Sum.noConfusion hbn
      | true =>
          have hOK := href rfl
          unfold refTagOK at hOK
          simp only [hbn] at hOK
          obtain ⟨t0, hlook, hqual⟩ := hOK
          rcases hnorm with hds | ⟨s, hds, hs⟩ <;> subst hds
          · simp [DBField.dump_schema, hlook, hqual]
          · simp [DBField.dump_schema, hlook, hqual, hs]

theorem forall2_mem_right {α β : Type} {R : α → β → Prop} :
    ∀ {l1 : List α} {l2 : List β}, List.Forall₂ R l1 l2 →
      ∀ b ∈ l2, ∃ a, a ∈ l1 ∧ R a b := by
  intro l1 l2 h
  induction h with
  | nil => intro b hb; simp at hb
  | cons hab htl ih =>
      intro b hb
      rcases List.mem_cons.mp hb with rfl | hb2
      · exact ⟨_, List.mem_cons_self _ _, hab⟩
      · obtain ⟨a, ha, hr⟩ := ih b hb2
        exact ⟨a, List.mem_cons_of_mem _ ha, hr⟩

theorem forall2_mem_left {α β : Type} {R : α → β → Prop} :
    ∀ {l1 : List α} {l2 : List β}, List.Forall₂ R l1 l2 →
      ∀ a ∈ l1, ∃ b, b ∈ l2 ∧ R a b := by
  intro l1 l2 h
  induction h with
  | nil => intro a ha; simp at ha
  | cons hab htl ih =>
      intro a ha
      rcases List.mem_cons.mp ha with rfl | ha2
      · exact ⟨_, List.mem_cons_self _ _, hab⟩
      · obtain ⟨b, hb, hr⟩ := ih a ha2
        exact ⟨b, List.mem_cons_of_mem _ hb, hr⟩

theorem forall2_map_eq {α β γ : Type} {R : α → β → Prop}
    (f : α → γ) (g : β → γ) :
    ∀ {l1 : List α} {l2 : List β}, List.Forall₂ R l1 l2 →
      (∀ a b, R a b → f a = g b) → l1.map f = l2.map g := by
  intro l1 l2 h hfg
  induction h with
  | nil => rfl
  | cons hab htl ih =>
      simp only [List.map_cons, ih, List.cons.injEq]
      exact ⟨hfg _ _ hab, trivial⟩

theorem dumpFields_forall2 :
    ∀ {fs : List (String × DBField)} {ds : List (String × FieldDump)},
      (fs.mapM fun nf => (DBField.dump_schema nf.2).map fun x => (nf.1, x)) =
        .ok ds →
      List.Forall₂
        (fun nf nd => nf.1 = nd.1 ∧ DBField.dump_schema nf.2 = .ok nd.2)
        fs ds := by
  intro fs
  induction fs with
  | nil =>
      intro ds h
      rw [List.mapM_nil] at h
      replace h : Except.ok ([] : List (String × FieldDump)) = Except.ok ds := h
      injection h with h
      subst h
      exact List.Forall₂.nil
  | cons a tl ih =>
      intro ds h
      rw [List.mapM_cons] at h
      cases hda : DBField.dump_schema a.2 with
      | error e =>
          rw [hda] at h
          simp [Except.map, Bind.bind, Except.bind] at h
      | ok da =>
          rw [hda] at h
          cases htl : (tl.mapM fun nf =>
              (DBField.dump_schema nf.2).map fun x => (nf.1, x)) with
          | error e =>
              rw [htl] at h
              simp [Except.map, Bind.bind, Except.bind] at h
          | ok ds2 =>
              rw [htl] at h
              replace h : Except.ok ((a.1, da) :: ds2) = Except.ok ds := h
              injection h with h
              subst h
              exact List.Forall₂.cons ⟨rfl, hda⟩ (ih htl)

theorem mapM_ok_of_forall2 :
    ∀ {fs : List (String × DBField)} {ds : List (String × FieldDump)},
      List.Forall₂
        (fun nf nd => nf.1 = nd.1 ∧ DBField.dump_schema nf.2 = .ok nd.2)
        fs ds →
      (fs.mapM fun nf => (DBField.dump_schema nf.2).map fun x => (nf.1, x)) =
        .ok ds := by
  intro fs ds h
  induction h with
  | nil => rw [List.mapM_nil]; rfl
  | cons hab htl ih =>
      obtain ⟨h1, h2⟩ := hab
      simp only [List.mapM_cons, h2, ih]
      rw [h1]
      rfl

theorem collectFieldStep_ok (st : CollectState) (n : String) (f : DBField)
    (h1 : strStarts n "_" = false) (h2 : f.name = n) (h3 : f.column ≠ "")
    (h4 : f.preType ≠ some (Sum.inr "FieldBody"))
    (h5 : List.lookup n st.fields = none) :
    collectFieldStep st n f =
      if f.pk then
        .ok { st with has_pk := true, pk := some f,
                      fields := st.fields ++ [(n, f)] }
      else if f.body then
        match st.body with
        | some _ => .error .quazyFieldTypeError
        | none => .ok { st with body := some f,
                                fields := st.fields ++ [(n, f)] }
      else .ok { st with fields := st.fields ++ [(n, f)] } := by
  obtain ⟨fn, fc, fft, fpk, fcid, fref, fbody, fprop, freq, fidx, funi, fhd, fds, fpt⟩ := f
  unfold collectFieldStep
  rw [prepare_self h2 h3]
  cases fpk with
  | true => simp [h1, dictSet_fresh h5]
  | false =>
      cases fbody with
      | true =>
          cases hsb : st.body with
          | some bf => simp [h1, h4, hsb]
          | none => simp [h1, h4, hsb, dictSet_fresh h5]
      | false => simp [h1, h4, dictSet_fresh h5]

theorem collectSteps_eq :
    ∀ (entries : List (String × DBField)) (st st' : CollectState),
      (∀ kf ∈ entries, strStarts kf.1 "_" = false ∧ kf.2.name = kf.1 ∧
        kf.2.column ≠ "" ∧ kf.2.preType ≠ some (Sum.inr "FieldBody")) →
      (∀ kf ∈ entries, List.lookup kf.1 st.fields = none) →
      (entries.map Prod.fst).Nodup →
      (entries.foldlM (fun st nf => collectFieldStep st nf.1 nf.2) st) =
        .ok st' →
      st'.fields = st.fields ++ entries ∧
        st'.has_pk = (st.has_pk || entries.any fun kf => kf.2.pk) := by
  intro entries
  induction entries with
  | nil =>
      intro st st' _ _ _ h
      rw [List.foldlM_nil] at h
      replace h : Except.ok st = Except.ok st' := h
      injection h with h
      subst h
      simp
  | cons a tl ih =>
      intro st st' hwf hfresh hnd h
      rw [List.foldlM_cons] at h
      obtain ⟨ha1, ha2, ha3, ha4⟩ := hwf a (List.mem_cons_self a tl)
      have hfa := hfresh a (List.mem_cons_self a tl)
      rw [collectFieldStep_ok st a.1 a.2 ha1 ha2 ha3 ha4 hfa] at h
      simp only [List.map_cons, List.nodup_cons] at hnd
      have hwf2 : ∀ kf ∈ tl, strStarts kf.1 "_" = false ∧ kf.2.name = kf.1 ∧
          kf.2.column ≠ "" ∧ kf.2.preType ≠ some (Sum.inr "FieldBody") :=
        fun kf hkf => hwf kf (List.mem_cons_of_mem a hkf)
      have hne : ∀ kf ∈ tl, kf.1 ≠ a.1 := by
        intro kf hkf he
        exact hnd.1 (he ▸ List.mem_map.mpr ⟨kf, hkf, rfl⟩)
      have hfr2 : ∀ kf ∈ tl,
          List.lookup kf.1 (st.fields ++ [(a.1, a.2)]) = none :=
        fun kf hkf => lookup_append_single_ne
          (hfresh kf (List.mem_cons_of_mem a hkf)) (hne kf hkf) a.2
      cases hpk : a.2.pk with
      | true =>
          rw [if_pos hpk] at h
          obtain ⟨hf, hp⟩ := ih
            { st with has_pk := true, pk := some a.2,
                      fields := st.fields ++ [(a.1, a.2)] } st'
            hwf2 hfr2 hnd.2 h
          constructor
          · rw [hf]
            simp
          · rw [hp]
            simp [hpk]
      | false =>
          rw [if_neg (by simp [hpk])] at h
          cases hb : a.2.body with
          | true =>
              rw [if_pos hb] at h
              cases hsb : st.body with
              | some bf =>
                  rw [hsb] at h
                  exact Except.noConfusion h
              | none =>
                  rw [hsb] at h
                  obtain ⟨hf, hp⟩ := ih
                    { st with body := some a.2,
                              fields := st.fields ++ [(a.1, a.2)] } st'
                    hwf2 hfr2 hnd.2 h
                  constructor
                  · rw [hf]
                    simp
                  · rw [hp]
                    simp [hpk]
          | false =>
              rw [if_neg (by simp [hb])] at h
              obtain ⟨hf, hp⟩ := ih
                { st with fields := st.fields ++ [(a.1, a.2)] } st'
                hwf2 hfr2 hnd.2 h
              constructor
              · rw [hf]
                simp
              · rw [hp]
                simp [hpk]

theorem pkNameOf_eq_keys (l : List (String × DBField)) :
    pkNameOf l = ((l.filter fun kf => kf.2.pk).map Prod.fst).getLast? := by
  unfold pkNameOf
  rw [List.getLast?_map]

theorem load_filter_keys :
    ∀ {fs : List (String × DBField)} {ds : List (String × FieldDump)},
      List.Forall₂
        (fun nf nd => nf.1 = nd.1 ∧ DBField.dump_schema nf.2 = .ok nd.2)
        fs ds →
      (((ds.map fun kd => (kd.1, DBField.load_schema kd.2)).filter
          fun kf => kf.2.pk).map Prod.fst) =
        ((fs.filter fun kf => kf.2.pk).map Prod.fst) := by
  intro fs ds h
  induction h with
  | nil => rfl
  | @cons a b l1 l2 hab htl ih =>
      obtain ⟨h1, h2⟩ := hab
      have hp : (DBField.load_schema b.2).pk = a.2.pk := by
        rw [load_pk]
        exact (dump_schema_props h2).2.2.2.1
      simp only [List.map_cons, List.filter_cons]
      rw [hp]
      cases hpk2 : a.2.pk with
      | true => simp [ih, h1]
      | false => simp [ih]

theorem dump_table_props {t : TableRec} {d : TableDump}
    (h : DBTable.dump_schema t = .ok d) :
    d.qualname = t.qualname ∧ d.modname = t.modname ∧ d.table = t.table ∧
      d.schema = t.schema ∧ d.extendable = t.extendable ∧
      d.just_for_typing = t.just_for_typing ∧
      (d.discriminator = none ∨ ∃ s, d.discriminator = some s ∧ s ≠ "") ∧
      List.Forall₂
        (fun nf nd => nf.1 = nd.1 ∧ DBField.dump_schema nf.2 = .ok nd.2)
        t.fields d.fields := by
  unfold DBTable.dump_schema at h
  cases hm : (t.fields.mapM fun nf =>
      (DBField.dump_schema nf.2).map fun x => (nf.1, x)) with
  | error e => rw [hm] at h; exact Except.noConfusion h
  | ok fds =>
      rw [hm] at h
      replace h : Except.ok _ = Except.ok d := h
      injection h with h
      subst h
      refine ⟨rfl, rfl, rfl, rfl, rfl, rfl, ?_, dumpFields_forall2 hm⟩
      rcases hdisc : t.discriminator with _ | s
      · left; simp
      · by_cases hs : s = ""
        · left; simp [hs]
        · right; exact ⟨s, by simp [hs], hs⟩

/-- C9: for a declared table whose fields are well-formed (names match
their keys, storage columns are nonempty, no name starts with an
underscore and keys are distinct), that declares a primary-key field,
has a nonempty storage name, and whose reference tags resolve
consistently in the registry used after loading, the schema round trip
`load_schema ∘ dump_schema` reproduces the table at the introspection
level: dumping the reloaded (type-resolved) table yields the identical
dump — same field names, storage columns, encoded type tags and
pk/cid/ref/body/property/required/indexed/unique flags — and the
primary-key designation over the fields is preserved. -/
theorem quazy_c9_schema_round_trip
    (look : String → Option TypeTag) (t : TableRec) (d : TableDump)
    (t2 : TableRec)
    (hd : DBTable.dump_schema t = .ok d)
    (hl : DBTable.load_schema d = .ok t2)
    (htab : t.table ≠ "")
    (hwf : ∀ kf ∈ t.fields, kf.2.name = kf.1 ∧ kf.2.column ≠ "" ∧
      strStarts kf.1 "_" = false)
    (hnd : (t.fields.map Prod.fst).Nodup)
    (hpk : (t.fields.any fun kf => kf.2.pk) = true)
    (href : ∀ kf ∈ t.fields, kf.2.ref = true → ∀ t1, kf.2.ftype = some t1 →
      TypeTag.qualOf t1 ≠ "FieldBody" ∧ refTagOK look (TypeTag.qualOf t1)) :
    DBTable.dump_schema (DBTable.resolveLoadedTypes look t2) = .ok d ∧
      pkNameOf t2.fields = pkNameOf t.fields := by
  obtain ⟨hq, hmod, htabeq, hsch, hext, hjft, hdisc, hF2⟩ := dump_table_props hd
  obtain ⟨dq, dm, dt, dsch, dfs, dext, ddisc, djft⟩ := d
  simp only at hq hmod htabeq hsch hext hjft hdisc hF2 hl
  have hds : ∀ kd ∈ dfs,
      kd.2.name = kd.1 ∧ kd.2.column ≠ "" ∧ strStarts kd.1 "_" = false ∧
        (kd.2.default_sql = none ∨ ∃ s, kd.2.default_sql = some s ∧ s ≠ "") ∧
        (kd.2.ref = false → ∃ t0, db_type_by_name kd.2.ftype = Sum.inl t0 ∧
          db_type_name t0 = some kd.2.ftype) ∧
        (kd.2.ref = true → kd.2.ftype ≠ "FieldBody" ∧
          refTagOK look kd.2.ftype) := by
    intro kd hkd
    obtain ⟨nf, hnf, hr1, hr2⟩ := forall2_mem_right hF2 kd hkd
    obtain ⟨hpn, hpc, hpr, hppk, hpb, hpnorm, hptype, hpreft⟩ :=
      dump_schema_props hr2
    obtain ⟨hw1, hw2, hw3⟩ := hwf nf hnf
    refine ⟨by rw [hpn, hw1, hr1], by rw [hpc]; exact hw2,
      by rw [← hr1]; exact hw3, hpnorm, hptype, ?_⟩
    intro hrt
    obtain ⟨t1, hft, hftq⟩ := hpreft hrt
    have hnfr : nf.2.ref = true := by rw [← hpr]; exact hrt
    obtain ⟨hfb, hOK⟩ := href nf hnf hnfr t1 hft
    rw [hftq]
    exact ⟨hfb, hOK⟩
  have hkeys : ((dfs.map fun kd =>
      (kd.1, DBField.load_schema kd.2)).map Prod.fst) =
        t.fields.map Prod.fst := by
    rw [List.map_map]
    have h1 := forall2_map_eq Prod.fst Prod.fst hF2 (fun a b hr => hr.1)
    rw [h1]
    rfl
  have hewf : ∀ kf ∈ (dfs.map fun kd => (kd.1, DBField.load_schema kd.2)),
      strStarts kf.1 "_" = false ∧ kf.2.name = kf.1 ∧ kf.2.column ≠ "" ∧
        kf.2.preType ≠ some (Sum.inr "FieldBody") := by
    intro kf hkf
    rw [List.mem_map] at hkf
    obtain ⟨kd, hkd, rfl⟩ := hkf
    obtain ⟨he1, he2, he3, he4, he5, he6⟩ := hds kd hkd
    rw [load_schema_eq kd.2 he2]
    refine ⟨he3, by simpa using he1, by simpa using he2, ?_⟩
    cases hbn : db_type_by_name kd.2.ftype with
    | inl t0 => simp [hbn]
    | inr n =>
        have hn := db_type_by_name_inr hbn
        cases hrt : kd.2.ref with
        | false =>
            obtain ⟨t0, hbn', _⟩ := he5 hrt
            rw [hbn'] at hbn
            exact Sum.noConfusion hbn
        | true =>
            obtain ⟨hfb, _⟩ := he6 hrt
            simp only [hbn]
            intro hcon
            injection hcon with hcon
            injection hcon with hcon
            rw [← hn] at hfb
            exact hfb hcon
  have hfresh : ∀ kf ∈ (dfs.map fun kd => (kd.1, DBField.load_schema kd.2)),
      List.lookup kf.1 (({} : CollectState)).fields = none := by
    intro kf _
    rfl
  have hndup : ((dfs.map fun kd =>
      (kd.1, DBField.load_schema kd.2)).map Prod.fst).Nodup := by
    rw [hkeys]; exact hnd
  have hany : ((dfs.map fun kd => (kd.1, DBField.load_schema kd.2)).any
      fun kf => kf.2.pk) = true := by
    obtain ⟨nf, hnf, hnfpk⟩ := List.any_eq_true.mp hpk
    obtain ⟨kd, hkd, hr1, hr2⟩ := forall2_mem_left hF2 nf hnf
    refine List.any_eq_true.mpr ⟨(kd.1, DBField.load_schema kd.2),
      List.mem_map.mpr ⟨kd, hkd, rfl⟩, ?_⟩
    show (DBField.load_schema kd.2).pk = true
    rw [load_pk, (dump_schema_props hr2).2.2.2.1]
    exact hnfpk
  simp only [DBTable.load_schema] at hl
  cases hclt : collectLoadedFields (dfs.map fun nf =>
      (nf.1, DBField.load_schema nf.2)) with
  | error e => rw [hclt] at hl; exact Except.noConfusion hl
  | ok st =>
      simp only [hclt] at hl
      unfold collectLoadedFields at hclt
      cases hfold : ((dfs.map fun nf =>
          (nf.1, DBField.load_schema nf.2)).foldlM
            (fun st nf => collectFieldStep st nf.1 nf.2)
            ({} : CollectState)) with
      | error e => rw [hfold] at hclt; exact Except.noConfusion hclt
      | ok st0 =>
          simp only [hfold] at hclt
          obtain ⟨hsf, hsp⟩ := collectSteps_eq _ ({} : CollectState) st0
            hewf hfresh hndup hfold
          have hfields0 : st0.fields = dfs.map fun kd =>
              (kd.1, DBField.load_schema kd.2) := by rw [hsf]; rfl
          have hp0 : st0.has_pk = true := by rw [hsp, hany]; rfl
          rw [if_pos hp0] at hclt
          replace hclt : Except.ok st0 = Except.ok st := hclt
          injection hclt with hclt
          subst hclt
          split at hl
          · exact Except.noConfusion hl
          · replace hl : Except.ok _ = Except.ok t2 := hl
            injection hl with hl
            subst hl
            have hdt : ¬(dt = "") := by rw [htabeq]; exact htab
            constructor
            · unfold DBTable.resolveLoadedTypes DBTable.dump_schema
              dsimp only
              have hmap : ((st0.fields.map fun nf =>
                  (nf.1, DBField.applyPreType look nf.2)).mapM fun nf =>
                    (DBField.dump_schema nf.2).map fun x => (nf.1, x)) =
                      .ok dfs := by
                rw [hfields0, List.map_map]
                apply mapM_ok_of_forall2
                rw [List.forall₂_map_left_iff, List.forall₂_same]
                intro kd hkd
                obtain ⟨he1, he2, he3, he4, he5, he6⟩ := hds kd hkd
                refine ⟨rfl, ?_⟩
                show DBField.dump_schema
                  (DBField.applyPreType look (DBField.load_schema kd.2)) =
                    Except.ok kd.2
                exact dump_of_load look kd.2 he2 he4 he5 (fun hh => (he6 hh).2)
              rw [hmap]
              rcases hdisc with h0 | ⟨s, h0, hs0⟩
              · simp [hdt, h0]
              · simp [hdt, h0, hs0]
            · show pkNameOf st0.fields = pkNameOf t.fields
              rw [hfields0, pkNameOf_eq_keys, pkNameOf_eq_keys,
                load_filter_keys hF2]

/-- Witness for C9: the fixture table `Item` (which exercises pk, cid,
reference, default, indexed, unique, body and property fields)
round-trips exactly, and the primary-key designation is preserved. -/
theorem quazy_c9_witness :
    DBTable.dump_schema Fix.tabItem = .ok Fix.dItem ∧
      DBTable.load_schema Fix.dItem = .ok Fix.tItem2 ∧
      Fix.tabItem.table ≠ "" ∧
      (DBTable.dump_schema
          (DBTable.resolveLoadedTypes Fix.lookOwner Fix.tItem2) =
            .ok Fix.dItem ∧
        pkNameOf Fix.tItem2.fields = pkNameOf Fix.tabItem.fields) := by
  refine ⟨by decide, by decide, by decide,
    quazy_c9_schema_round_trip Fix.lookOwner Fix.tabItem Fix.dItem Fix.tItem2
      (by decide) (by decide) (by decide) (by decide) (by decide) (by decide)
      ?_⟩
  intro kf hkf hr t1 hft
  simp only [Fix.tabItem, List.mem_cons, List.not_mem_nil, or_false] at hkf
  rcases hkf with rfl | rfl | rfl | rfl | rfl | rfl | rfl | rfl
  · exact absurd hr (by decide)
  · exact absurd hr (by decide)
  · have ht1 : t1 = TypeTag.tTable "Owner" := by
      have h2 : some (TypeTag.tTable "Owner") = some t1 := hft
      injection h2 with h2
      exact h2.symm
    subst ht1
    constructor
    · decide
    · show refTagOK Fix.lookOwner "Owner"
      exact ⟨TypeTag.tTable "Owner", rfl, rfl⟩
  · exact absurd hr (by decide)
  · exact absurd hr (by decide)
  · exact absurd hr (by decide)
  · exact absurd hr (by decide)
  · exact absurd hr (by decide)

theorem withQueryFold_with_queries (sub_name : String)
    (l : List (String × PyVal)) :
    ∀ acc : QueryState,
      (l.foldl (fun acc kv =>
        if strStarts kv.1 "_arg_" then
          { acc with args := dictSet acc.args ("_" ++ sub_name ++ kv.1) kv.2 }
        else { acc with args := dictSet acc.args kv.1 kv.2 }) acc).with_queries
        = acc.with_queries := by
  induction l with
  | nil => intro acc; rfl
  | cons a tl ih =>
      intro acc
      rw [List.foldl_cons]
      by_cases hc : strStarts a.1 "_arg_" = true
      · rw [if_pos hc, ih]
      · rw [if_neg hc, ih]

/-- C1 (code bug): on a frozen query every clause-mutating builder
method — `select`, `select_all`, `distinct`, `sort_by`, `filter`,
`exclude`, `group_filter`, `group_by`, `set_window`, `chained` and a
second `freeze` — fails, but with the built-in `TypeError` (the bare
`raise QuazyFrozen` in `_check_frozen` instantiates `QuazyFrozen`
without its required `msg` argument), never with a `QuazyFrozen`
instance; and `with_query`, which the claim also lists, performs no
frozen check at all: it completes normally and mutates the frozen
query's `with_queries` list. -/
theorem quazy_c1_frozen_mutators (reg : Reg) (q : QueryState) (s : String)
    (h : q.frozen_sql = some s) :
    (∀ e kw, DBQuery.filter reg q e kw = .error .typeError) ∧
    (∀ e, DBQuery.exclude reg q e = .error .typeError) ∧
    (∀ ns fs, DBQuery.select reg q ns fs = .error .typeError) ∧
    DBQuery.select_all q = .error .typeError ∧
    DBQuery.distinct q = .error .typeError ∧
    (∀ fs desc, DBQuery.sort_by reg q fs desc = .error .typeError) ∧
    (∀ ex, DBQuery.group_filter reg q ex = .error .typeError) ∧
    (∀ fs, DBQuery.group_by reg q fs = .error .typeError) ∧
    (∀ o l, DBQuery.set_window q o l = .error .typeError) ∧
    (∀ idn nxt sv, DBQuery.chained reg q idn nxt sv = .error .typeError) ∧
    DBQuery.freeze reg q = .error .typeError ∧
    PyError.typeError ≠ PyError.quazyFrozen ∧
    (∀ sub nm,
      ((DBQuery.with_query q sub nm).1.with_queries).length =
        q.with_queries.length + sub.with_queries.length + 1) := by
  refine ⟨?_, ?_, ?_, ?_, ?_, ?_, ?_, ?_, ?_, ?_, ?_, by decide, ?_⟩
  · intro e kw; simp [DBQuery.filter, DBQuery.check_frozen, h]
  · intro e; simp [DBQuery.exclude, DBQuery.check_frozen, h]
  · intro ns fs; simp [DBQuery.select, DBQuery.check_frozen, h]
  · simp [DBQuery.select_all, DBQuery.check_frozen, h]
  · simp [DBQuery.distinct, DBQuery.check_frozen, h]
  · intro fs desc; simp [DBQuery.sort_by, DBQuery.check_frozen, h]
  · intro ex; simp [DBQuery.group_filter, DBQuery.check_frozen, h]
  · intro fs; simp [DBQuery.group_by, DBQuery.check_frozen, h]
  · intro o l; simp [DBQuery.set_window, DBQuery.check_frozen, h]
  · intro idn nxt sv; simp [DBQuery.chained, DBQuery.check_frozen, h]
  · simp [DBQuery.freeze, DBQuery.check_frozen, h]
  · intro sub nm
    unfold DBQuery.with_query
    rw [withQueryFold_with_queries]
    simp [Nat.add_assoc]

/-- Witness for C1 at the frozen fixture query: `filter` and `freeze`
fail with the `TypeError`, while `with_query` completes and extends the
`WITH` clause list. -/
theorem quazy_c1_witness :
    Fix.qFrozen.frozen_sql = some "SELECT 1" ∧
      DBQuery.filter Fix.reg1 Fix.qFrozen none [] = .error .typeError ∧
      DBQuery.freeze Fix.reg1 Fix.qFrozen = .error .typeError ∧
      ((DBQuery.with_query Fix.qFrozen Fix.subq true).1.with_queries).length =
        Fix.qFrozen.with_queries.length + Fix.subq.with_queries.length + 1 := by
  have h := quazy_c1_frozen_mutators Fix.reg1 Fix.qFrozen "SELECT 1" (by decide)
  obtain ⟨h1, h2, h3, h4, h5, h6, h7, h8, h9, h10, h11, h12, h13⟩ := h
  exact ⟨by decide, h1 none [], h11, h13 Fix.subq true⟩
